import Mathlib

/-!
# elastosadenine/node_rpc.go: a shallow embedding

The Go file `src/elastosadenine/node_rpc.go` is a client for a node RPC
service.  Every call goes through `NodeRpc.RpcMethod`, which wraps the call
descriptor in an HS256-signed JWT, sends it, and verifies and unwraps the
signed reply.  The facade methods (`GetCurrentHeight`, `GetBlockInfo`, ...)
shape parameters and post-process results.

Conventions of the embedding

* Go `string` values are Lean `String`s; `[]byte(s)` is `utf8 s`.
* Machine integers are `Nat`/`Int` with explicit wrap-around where the Go
  code can overflow.
* A Go function that can call `log.Fatalf` or panic returns an `Outcome`.
* The world outside the process (remote endpoint, wall clock) and the
  byte-level primitives of the Go libraries (base64, JSON text, SHA-2) are
  fields of `World` and `Lib`; the control flow of `strconv`, `fmt`,
  `strings`, `crypto/hmac` and `jwt-go` that the claims depend on is written
  out.
-/

namespace Adenine

/-! ## Go values -/

/-- Dynamic Go values (`interface{}`) as they occur in `params` and in decoded
JSON replies.  `float64` carries the exact value of the float; `chan` stands
for the values `encoding/json` cannot serialise (channels, functions). -/
inductive GoValue where
  | nil : GoValue
  | bool (b : Bool) : GoValue
  | int (i : Int) : GoValue
  | float64 (q : ℚ) : GoValue
  | str (s : String) : GoValue
  | slice (xs : List GoValue) : GoValue
  | map (m : List (String × GoValue)) : GoValue
  | chan : GoValue

instance : Inhabited GoValue := ⟨GoValue.nil⟩

/-- Result of running a Go function that may terminate the process. -/
inductive Outcome (α : Type) where
  /-- the function returned normally -/
  | ret (v : α) : Outcome α
  /-- `log.Fatalf`: the message is logged and the process exits -/
  | fatal (msg : String) : Outcome α
  /-- a run-time panic (failed type assertion, nil dereference) -/
  | panic (msg : String) : Outcome α

/-- The outcome is a failure: `log.Fatalf` or a panic. -/
def Outcome.failed {α : Type} : Outcome α → Bool
  | Outcome.ret _ => false
  | _ => true

/-- Go map indexing `m[key]` on a `map[string]interface{}`: the stored value,
or the nil interface when the key is absent. -/
def mapIndex (m : List (String × GoValue)) (key : String) : GoValue :=
  match m.lookup key with
  | some v => v
  | none => GoValue.nil

/-! ## strconv, fmt, strings -/

/-- The two error kinds of `strconv` that matter here, plus the invalid-base
error. -/
inductive NumError where
  | ErrSyntax : NumError
  | ErrRange : NumError
  | ErrBase : NumError
  deriving DecidableEq, Repr

/-- Go's `strconv.lower`: `c | ('x' - 'X')` on the character code. -/
def lower (c : Char) : Nat := c.toNat ||| 32

/-- The digit decoding of the `switch` in `strconv.ParseUint`'s loop (the
underscore case applies to base 0 only and is never taken here). -/
def digitVal (c : Char) : Option Nat :=
  if 48 ≤ c.toNat ∧ c.toNat ≤ 57 then some (c.toNat - 48)
  else if 97 ≤ lower c ∧ lower c ≤ 122 then some (lower c - 97 + 10)
  else none

/-- The largest `uint64`. -/
def maxUint64 : Nat := 2 ^ 64 - 1

/-- The digit loop of `strconv.ParseUint` with `bitSize = 64`: `n` is the
accumulator, `cutoff = maxUint64 / base + 1`. -/
def ParseUintLoop (base : Nat) : List Char → Nat → Nat × Option NumError
  | [], n => (n, none)
  | c :: cs, n =>
    match digitVal c with
    | none => (0, some NumError.ErrSyntax)
    | some d =>
      if d ≥ base then (0, some NumError.ErrSyntax)
      else if n ≥ maxUint64 / base + 1 then (maxUint64, some NumError.ErrRange)
      else
        let n0 := (n * base) % 2 ^ 64
        let n1 := (n0 + d) % 2 ^ 64
        if n1 < n0 ∨ n1 > maxUint64 then (maxUint64, some NumError.ErrRange)
        else ParseUintLoop base cs n1

/-- Go's `strconv.ParseUint(s, base, 64)` for an explicit base `2..36`. -/
def ParseUint (s : List Char) (base : Nat) : Nat × Option NumError :=
  if s = [] then (0, some NumError.ErrSyntax)
  else if 2 ≤ base ∧ base ≤ 36 then ParseUintLoop base s 0
  else (0, some NumError.ErrBase)

/-- Go's `strconv.ParseInt(s, base, 64)`: the value and the error. -/
def ParseInt (s : List Char) (base : Nat) : Int × Option NumError :=
  match s with
  | [] => (0, some NumError.ErrSyntax)
  | c :: rest =>
    let neg := decide (c = '-')
    let digits := if c = '+' ∨ c = '-' then rest else s
    match ParseUint digits base with
    | (un, err) =>
      if err ≠ none ∧ err ≠ some NumError.ErrRange then (0, err)
      else if neg = false ∧ un ≥ 2 ^ 63 then ((2 : Int) ^ 63 - 1, some NumError.ErrRange)
      else if neg = true ∧ un > 2 ^ 63 then (-(2 : Int) ^ 63, some NumError.ErrRange)
      else (if neg then -(un : Int) else (un : Int), none)

/-- Go's `strconv.Atoi(s)` on a 64-bit platform.  Its fast path for short
strings computes the same value and error as `ParseInt(s, 10, 0)`. -/
def Atoi (s : String) : Int × Option NumError := ParseInt s.data 10

/-- The text of `fmt.Sprintf("%v", i)` for an `int64`. -/
def SprintfV (i : Int) : String :=
  if i < 0 then "-" ++ Nat.repr i.natAbs else Nat.repr i.toNat

/-- The text of `fmt.Sprintf("0x%02x", i)` for an `int`: lowercase hexadecimal,
zero-padded to width 2, the sign counting towards the width. -/
def Sprintf0x02x (i : Int) : String :=
  let digits := Nat.toDigits 16 i.natAbs
  let prec := if i < 0 then 1 else 2
  let padded := List.replicate (prec - digits.length) '0' ++ digits
  String.mk ('0' :: 'x' :: ((if i < 0 then ['-'] else []) ++ padded))

/-- The replacement loop of `strings.Replace(s, old, new, -1)` for a non-empty
`old`: scanning left to right, each occurrence of `old` is replaced and the
scan resumes after it.  `fuel` bounds the number of scan steps. -/
def replaceLoop (old new : List Char) : Nat → List Char → List Char
  | 0, s => s
  | fuel + 1, s =>
    match s with
    | [] => []
    | c :: cs =>
      if old.isPrefixOf s then new ++ replaceLoop old new fuel (s.drop old.length)
      else c :: replaceLoop old new fuel cs

/-- Go's `strings.Replace(s, old, new, -1)` for a non-empty `old` (the program
calls it with `old = "0x"` only); an empty `old` is left unmodelled and returns
`s`. -/
def stringsReplaceAll (s old new : String) : String :=
  if old = new ∨ old = "" then s
  else String.mk (replaceLoop old.data new.data s.length s.data)

/-- Go's `strings.Split(s, sep)` for a one-character separator, on the
character list. -/
def splitChars (sep : Char) : List Char → List (List Char)
  | [] => [[]]
  | c :: cs =>
    if c = sep then [] :: splitChars sep cs
    else
      match splitChars sep cs with
      | [] => [[c]]
      | p :: ps => (c :: p) :: ps

/-- Go's `strings.Split(s, ".")`. -/
def stringsSplitDot (s : String) : List String :=
  (splitChars '.' s.data).map String.mk

/-- The conversion `[]byte(s)`. -/
def utf8 (s : String) : List UInt8 := s.data.flatMap String.utf8EncodeChar

/-- Go's `int64(f)` for a `float64` holding the value `q`: truncation towards
zero; outside the `int64` range the amd64 result `-2^63`. -/
def truncInt64 (q : ℚ) : Int :=
  let t := Int.tdiv q.num (q.den : Int)
  if -(2 : Int) ^ 63 ≤ t ∧ t < (2 : Int) ^ 63 then t else -(2 : Int) ^ 63

/-! ## The library primitives -/

/-- The hash functions of the HMAC signing methods HS256, HS384, HS512. -/
inductive HashAlg where
  | SHA256 : HashAlg
  | SHA384 : HashAlg
  | SHA512 : HashAlg
  deriving DecidableEq, Repr

/-- Block size in bytes of the hash (`hash.Hash.BlockSize`). -/
def HashAlg.blockSize : HashAlg → Nat
  | HashAlg.SHA256 => 64
  | HashAlg.SHA384 => 128
  | HashAlg.SHA512 => 128

/-- The struct `JWTInfoNodeRpc` (lines 24-29): the call descriptor. -/
structure JWTInfoNodeRpc where
  Network : String
  Chain : String
  Method : String
  Params : GoValue

/-- Modelled from the spec: the struct `JWTClaim`, whose declaration is in a
file of the package other than `node_rpc.go`.  The spec (section 3) gives the
outbound credential two parts, the serialized call descriptor and an
expiration timestamp; lines 204-209 fill exactly these: the string `JwtInfo`
and the `ExpiresAt` of the embedded `jwt.StandardClaims`. -/
structure JWTClaim where
  JwtInfo : String
  ExpiresAt : Int

/-- Byte-level primitives of the Go libraries, kept abstract: JSON text
production and parsing, base64url, the SHA-2 functions, float formatting. -/
structure Lib where
  /-- the text of `json.Marshal(JWTInfoNodeRpc{...})`, `none` on error -/
  marshalInfo : JWTInfoNodeRpc → Option String
  /-- the text of `json.Marshal(token.Header)` for the header
  `{"typ": "JWT", "alg": alg}` -/
  marshalHeader : String → Option String
  /-- the text of `json.Marshal(claims)` for a `JWTClaim` -/
  marshalClaims : JWTClaim → Option String
  /-- the function `jwt.EncodeSegment`: base64url without padding -/
  encodeSegment : List UInt8 → String
  /-- the function `jwt.DecodeSegment`, `none` on error -/
  decodeSegment : String → Option (List UInt8)
  /-- the value `json.Unmarshal` reads from a complete JSON text -/
  jsonUnmarshal : List UInt8 → Option GoValue
  /-- the value `json.Decoder.Decode` reads from the start of a stream -/
  jsonDecode : List UInt8 → Option GoValue
  /-- the digest function of each hash -/
  hash : HashAlg → List UInt8 → List UInt8
  /-- the text of `fmt.Sprintf("%.0f", f)` -/
  sprintfF0 : ℚ → String

/-! ## crypto/hmac -/

/-- The key block of `hmac.New`: a key longer than the block size is hashed,
then the key is padded with zero bytes to the block size. -/
def hmacKeyBlock (L : Lib) (h : HashAlg) (key : List UInt8) : List UInt8 :=
  let k := if key.length > h.blockSize then L.hash h key else key
  k ++ List.replicate (h.blockSize - k.length) 0

/-- The tag `hmac.New(h, key).Write(msg).Sum(nil)`:
`H((K xor opad) ++ H((K xor ipad) ++ msg))`. -/
def hmacSum (L : Lib) (h : HashAlg) (key msg : List UInt8) : List UInt8 :=
  let kb := hmacKeyBlock L h key
  let ipad := kb.map (fun b => b ^^^ 0x36)
  let opad := kb.map (fun b => b ^^^ 0x5c)
  L.hash h (opad ++ L.hash h (ipad ++ msg))

/-- The input of the outer hash of HMAC,
`(K xor opad) ++ H((K xor ipad) ++ msg)`; the tag `hmacSum` is its hash. -/
def hmacOuterInput (L : Lib) (h : HashAlg) (key msg : List UInt8) : List UInt8 :=
  let kb := hmacKeyBlock L h key
  kb.map (fun b => b ^^^ 0x5c) ++ L.hash h (kb.map (fun b => b ^^^ 0x36) ++ msg)

/-! ## jwt-go (github.com/dgrijalva/jwt-go, v3) -/

/-- The registered signing methods: the HMAC family and the others (RSA,
ECDSA, RSA-PSS, none), which the program's key function refuses. -/
inductive SigningMethod where
  | HMAC (h : HashAlg) : SigningMethod
  | other (alg : String) : SigningMethod
  deriving DecidableEq, Repr

/-- The function `jwt.GetSigningMethod`: the method registered under `alg`. -/
def GetSigningMethod (alg : String) : Option SigningMethod :=
  if alg = "HS256" then some (SigningMethod.HMAC HashAlg.SHA256)
  else if alg = "HS384" then some (SigningMethod.HMAC HashAlg.SHA384)
  else if alg = "HS512" then some (SigningMethod.HMAC HashAlg.SHA512)
  else if alg ∈ ["RS256", "RS384", "RS512", "ES256", "ES384", "ES512",
      "PS256", "PS384", "PS512", "none"] then some (SigningMethod.other alg)
  else none

/-- The flags of `jwt.ValidationError.Errors`. -/
inductive ErrFlag where
  | Malformed : ErrFlag
  | Unverifiable : ErrFlag
  | SignatureInvalid : ErrFlag
  | Expired : ErrFlag
  | IssuedAt : ErrFlag
  | NotValidYet : ErrFlag
  deriving DecidableEq, Repr

/-- The struct `jwt.Token`; `Claims = none` is the nil interface, `some m` a
`jwt.MapClaims`. -/
structure Token where
  Raw : String
  Method : Option SigningMethod
  Header : List (String × GoValue)
  Claims : Option (List (String × GoValue))
  Signature : String
  Valid : Bool

/-- Decoding a JSON value into a Go map: an object fills the map, `null`
leaves it as it was (empty), anything else is an error. -/
def asMap : GoValue → Option (List (String × GoValue))
  | GoValue.map m => some m
  | GoValue.nil => some []
  | _ => none

/-- The method `SigningMethodHMAC.Sign` with a `[]byte` key. -/
def hmacSign (L : Lib) (h : HashAlg) (signingString : String) (key : List UInt8) : String :=
  L.encodeSegment (hmacSum L h key (utf8 signingString))

/-- The method `Token.SigningString` for a token made by
`jwt.NewWithClaims(jwt.SigningMethodHS256, claims)`, given the JSON text of
the claims: the encoded header and claims joined by a dot, `none` when a
`json.Marshal` fails. -/
def SigningString (L : Lib) (claimsJSON : Option String) : Option String :=
  match L.marshalHeader "HS256", claimsJSON with
  | some headerJSON, some cj =>
    some (L.encodeSegment (utf8 headerJSON) ++ "." ++ L.encodeSegment (utf8 cj))
  | _, _ => none

/-- The method `Token.SignedString` for the same token with a `[]byte` key:
the signing string, a dot, and the signature. -/
def SignedString (L : Lib) (claimsJSON : Option String) (key : List UInt8) : Option String :=
  (SigningString L claimsJSON).map
    (fun sstr => sstr ++ "." ++ hmacSign L HashAlg.SHA256 sstr key)

/-- The function `verifyExp`: a zero `exp` counts as not set. -/
def verifyExp (exp now : Int) (required : Bool) : Bool :=
  if exp = 0 then !required else decide (now ≤ exp)

/-- The function `verifyIat`. -/
def verifyIat (iat now : Int) (required : Bool) : Bool :=
  if iat = 0 then !required else decide (now ≥ iat)

/-- The function `verifyNbf`. -/
def verifyNbf (nbf now : Int) (required : Bool) : Bool :=
  if nbf = 0 then !required else decide (now ≥ nbf)

/-- The method `MapClaims.VerifyExpiresAt(now, false)`: only a numeric `exp`
is compared. -/
def VerifyExpiresAt (m : List (String × GoValue)) (now : Int) : Bool :=
  match mapIndex m "exp" with
  | GoValue.float64 exp => verifyExp (truncInt64 exp) now false
  | _ => true

/-- The method `MapClaims.VerifyIssuedAt(now, false)`. -/
def VerifyIssuedAt (m : List (String × GoValue)) (now : Int) : Bool :=
  match mapIndex m "iat" with
  | GoValue.float64 iat => verifyIat (truncInt64 iat) now false
  | _ => true

/-- The method `MapClaims.VerifyNotBefore(now, false)`. -/
def VerifyNotBefore (m : List (String × GoValue)) (now : Int) : Bool :=
  match mapIndex m "nbf" with
  | GoValue.float64 nbf => verifyNbf (truncInt64 nbf) now false
  | _ => true

/-- The method `MapClaims.Valid` at time `now`: the flags of the validation
error, empty when the claims are valid. -/
def MapClaimsValid (m : List (String × GoValue)) (now : Int) : List ErrFlag :=
  (if VerifyExpiresAt m now then [] else [ErrFlag.Expired]) ++
  (if VerifyIssuedAt m now then [] else [ErrFlag.IssuedAt]) ++
  (if VerifyNotBefore m now then [] else [ErrFlag.NotValidYet])

/-- The method `SigningMethod.Verify` with a `[]byte` key: for the HMAC family
the signature segment must decode to the tag of the signing string; the other
methods do not accept a `[]byte` key. -/
def Verify (L : Lib) (m : SigningMethod) (signingString signature : String)
    (key : List UInt8) : Bool :=
  match m with
  | SigningMethod.HMAC h =>
    match L.decodeSegment signature with
    | none => false
    | some sig => decide (sig = hmacSum L h key (utf8 signingString))
  | SigningMethod.other _ => false

/-- The method `Parser.ParseUnverified` with `MapClaims{}`: the token (nil when
the segment count is wrong), the segments, and the error flags (`none` for a
nil error). -/
def ParseUnverified (L : Lib) (tokenString : String) :
    Option Token × List String × Option (List ErrFlag) :=
  let parts := stringsSplitDot tokenString
  match parts with
  | [p0, p1, _] =>
    let token : Token := ⟨tokenString, none, [], none, "", false⟩
    match (L.decodeSegment p0).bind L.jsonUnmarshal with
    | none => (some token, parts, some [ErrFlag.Malformed])
    | some hv =>
      match asMap hv with
      | none => (some token, parts, some [ErrFlag.Malformed])
      | some header =>
        let token : Token := ⟨tokenString, none, header, some [], "", false⟩
        match ((L.decodeSegment p1).bind L.jsonDecode).bind asMap with
        | none => (some token, parts, some [ErrFlag.Malformed])
        | some claims =>
          let token : Token := ⟨tokenString, none, header, some claims, "", false⟩
          match mapIndex header "alg" with
          | GoValue.str alg =>
            match GetSigningMethod alg with
            | none => (some token, parts, some [ErrFlag.Unverifiable])
            | some method =>
              (some ⟨tokenString, some method, header, some claims, "", false⟩, parts, none)
          | _ => (some token, parts, some [ErrFlag.Unverifiable])
  | _ => (none, parts, some [ErrFlag.Malformed])

/-- The function `jwt.Parse(tokenString, keyFunc)` at verification time `now`:
the token (possibly nil) and the error flags (`none` for a nil error).  The
key function returns the key or refuses the token. -/
def Parse (L : Lib) (now : Int) (tokenString : String)
    (keyFunc : Token → Option (List UInt8)) : Option Token × Option (List ErrFlag) :=
  match ParseUnverified L tokenString with
  | (some token, [p0, p1, p2], none) =>
    match keyFunc token with
    | none => (some token, some [ErrFlag.Unverifiable])
    | some key =>
      let claimFlags := match token.Claims with
        | some m => MapClaimsValid m now
        | none => []
      let sigFlags := match token.Method with
        | some method =>
          if Verify L method (p0 ++ "." ++ p1) p2 key then [] else [ErrFlag.SignatureInvalid]
        | none => [ErrFlag.SignatureInvalid]
      let flags := claimFlags ++ sigFlags
      if flags = [] then
        (some ⟨token.Raw, token.Method, token.Header, token.Claims, p2, true⟩, none)
      else
        (some ⟨token.Raw, token.Method, token.Header, token.Claims, p2, false⟩, some flags)
  | (token, _, err) => (token, err)

/-! ## The client: `NodeRpc` -/

/-- The message `node_rpc.Request{Input: ...}` together with the `did` put in
the outgoing metadata (lines 216-221). -/
structure Request where
  Input : String
  did : String
  deriving DecidableEq, Repr

/-- The reply message: the fields `Output` and `Status` read at lines
226-227. -/
structure Response where
  Output : String
  Status : Bool
  deriving DecidableEq, Repr

/-- What a run of the client does, in order. -/
inductive Event where
  /-- entry of `RpcMethod` (line 193) with its arguments -/
  | call (apiKey did network chain method : String) (params : GoValue) : Event
  /-- line 212: `SignedString` produced the token -/
  | signed (token : String) : Event
  /-- line 221: the request is handed to the connection -/
  | invoke (req : Request) : Event
  /-- line 227: `jwt.Parse` runs on the reply output -/
  | parse (output : String) : Event
  /-- line 235: the claims of the reply token are read -/
  | readClaims : Event

/-- Everything outside `node_rpc.go`: the library primitives, the clock, the
package constant `tokenExpiration`, and the remote endpoint behind
`n.Connection`.  The readings may depend on what has happened so far. -/
structure World where
  lib : Lib
  /-- the value `time.Now().UTC().Add(tokenExpiration).Unix()` at line 207 -/
  expiresAt : List Event → Int
  /-- the value `jwt.TimeFunc().Unix()` read inside `jwt.Parse` -/
  now : List Event → Int
  /-- the result of `client.RpcMethod(ctx, request)`: a reply, or an error
  (transport failure, deadline `requestTimeout` exceeded) -/
  remote : List Event → Request → Except String Response

/-- A run: from the events so far to an outcome and the events after it. -/
abbrev Run (α : Type) := List Event → Outcome α × List Event

/-- Sequencing: continue with the returned value, stop at a failure. -/
def Run.andThen {α β : Type} (r : Outcome α × List Event)
    (k : α → List Event → Outcome β × List Event) : Outcome β × List Event :=
  match r with
  | (Outcome.ret v, tr) => k v tr
  | (Outcome.fatal m, tr) => (Outcome.fatal m, tr)
  | (Outcome.panic m, tr) => (Outcome.panic m, tr)

/-- The key function passed to `jwt.Parse` at lines 227-232: the key
`[]byte(apiKey)` for an HMAC method, an error otherwise. -/
def keyFunc (apiKey : String) (recvToken : Token) : Option (List UInt8) :=
  match recvToken.Method with
  | some (SigningMethod.HMAC _) => some (utf8 apiKey)
  | _ => none

/-- Lines 235-236 of `RpcMethod`: the two type assertions that read `data`
out of the verified claims.  A failed assertion panics; `.(interface{})` fails
on the nil interface. -/
def readResult (recvClaims : List (String × GoValue)) : Outcome GoValue :=
  match mapIndex recvClaims "jwt_info" with
  | GoValue.map strMap =>
    match mapIndex strMap "result" with
    | GoValue.nil => Outcome.panic "interface conversion: interface is nil"
    | data => Outcome.ret data
  | _ => Outcome.panic "interface conversion: not map[string]interface {}"

/-- Lines 226-241 of `RpcMethod`: what is done with the reply. -/
def handleResponse (W : World) (apiKey : String) (response : Response) : Run GoValue :=
  fun tr =>
  if response.Status = true then
    let tr1 := tr ++ [Event.parse response.Output]
    match Parse W.lib (W.now tr) response.Output (keyFunc apiKey) with
    | (none, _) => (Outcome.panic "invalid memory address or nil pointer dereference", tr1)
    | (some recvToken, _) =>
      match recvToken.Claims with
      | some recvClaims =>
        if recvToken.Valid then (readResult recvClaims, tr1 ++ [Event.readClaims])
        else (Outcome.fatal "Failed to execute 'RpcMethod' method", tr1)
      | none => (Outcome.fatal "Failed to execute 'RpcMethod' method", tr1)
  else (Outcome.ret GoValue.nil, tr)

/-- Lines 194-224 of `RpcMethod`: the request is built, signed and sent; the
result is the reply of the remote endpoint. -/
def sendRequest (W : World) (apiKey did network chain method : String) (params : GoValue) :
    Run Response :=
  fun tr =>
  let tr0 := tr ++ [Event.call apiKey did network chain method params]
  let jwtInfo := match W.lib.marshalInfo ⟨network, chain, method, params⟩ with
    | some text => text
    | none => ""
  let claims : JWTClaim := ⟨jwtInfo, W.expiresAt tr⟩
  match SignedString W.lib (W.lib.marshalClaims claims) (utf8 apiKey) with
  | none => (Outcome.fatal "Failed to execute 'RpcMethod' method", tr0)
  | some jwtTokenString =>
    let tr1 := tr0 ++ [Event.signed jwtTokenString]
    let request : Request := ⟨jwtTokenString, did⟩
    let tr2 := tr1 ++ [Event.invoke request]
    match W.remote tr request with
    | Except.error _ => (Outcome.fatal "Failed to execute 'RpcMethod' method", tr2)
    | Except.ok response => (Outcome.ret response, tr2)

/-- The method `NodeRpc.RpcMethod` (lines 193-242). -/
def RpcMethod (W : World) (apiKey did network chain method : String) (params : GoValue) :
    Run GoValue :=
  fun tr =>
  Run.andThen (sendRequest W apiKey did network chain method params tr)
    (fun response => handleResponse W apiKey response)

/-- The type assertion `.(map[string]interface{})` on a returned value. -/
def assertMap (r : Outcome GoValue × List Event) :
    Outcome (List (String × GoValue)) × List Event :=
  Run.andThen r (fun v tr =>
    match v with
    | GoValue.map m => (Outcome.ret m, tr)
    | _ => (Outcome.panic "interface conversion: not map[string]interface {}", tr))

/-- The type assertion `.(string)` on a returned value. -/
def assertString (r : Outcome GoValue × List Event) : Outcome String × List Event :=
  Run.andThen r (fun v tr =>
    match v with
    | GoValue.str s => (Outcome.ret s, tr)
    | _ => (Outcome.panic "interface conversion: not string", tr))

/-- The method `NodeRpc.GetCurrentNodeState` (lines 188-191). -/
def GetCurrentNodeState (W : World) (apiKey did network chain : String) :
    Run (List (String × GoValue)) :=
  fun tr => assertMap (RpcMethod W apiKey did network chain "getnodestate" (GoValue.map []) tr)

/-- The method `NodeRpc.GetCurrentHeight` (lines 172-185). -/
def GetCurrentHeight (W : World) (apiKey did network chain : String) : Run String :=
  fun tr =>
  if chain = "eth" then
    Run.andThen
      (assertString (RpcMethod W apiKey did network chain "eth_blockNumber" (GoValue.map []) tr))
      (fun currentHeightHex tr1 =>
        let currentHeightHexCleaned := stringsReplaceAll currentHeightHex "0x" ""
        let currentHeightInt64 := (ParseInt currentHeightHexCleaned.data 16).1
        (Outcome.ret (SprintfV currentHeightInt64), tr1))
  else
    Run.andThen (GetCurrentNodeState W apiKey did network chain tr)
      (fun nodeState tr1 =>
        match mapIndex nodeState "height" with
        | GoValue.float64 h => (Outcome.ret (W.lib.sprintfF0 h), tr1)
        | _ => (Outcome.panic "interface conversion: not float64", tr1))

/-- The method `NodeRpc.GetBlockInfo` (lines 130-142). -/
def GetBlockInfo (W : World) (apiKey did network chain height : String) :
    Run (List (String × GoValue)) :=
  fun tr =>
  if chain = "eth" then
    let heightInt := (Atoi height).1
    let params := GoValue.slice [GoValue.str (Sprintf0x02x heightInt), GoValue.bool true]
    assertMap (RpcMethod W apiKey did network chain "eth_getBlockByNumber" params tr)
  else
    let params := GoValue.map [("height", GoValue.str height)]
    assertMap (RpcMethod W apiKey did network chain "getblockbyheight" params tr)

/-- The method `NodeRpc.GetCurrentBlockInfo` (lines 124-127). -/
def GetCurrentBlockInfo (W : World) (apiKey did network chain : String) :
    Run (List (String × GoValue)) :=
  fun tr =>
  Run.andThen (GetCurrentHeight W apiKey did network chain tr)
    (fun height => GetBlockInfo W apiKey did network chain height)

/-- The method `NodeRpc.GetBlockConfirm` (lines 106-115). -/
def GetBlockConfirm (W : World) (apiKey did network height : String) :
    Run (List (String × GoValue)) :=
  fun tr =>
  match Atoi height with
  | (h, none) =>
    let params := GoValue.map [("height", GoValue.int h), ("verbosity", GoValue.int 1)]
    assertMap (RpcMethod W apiKey did network "mainchain" "getconfirmbyheight" params tr)
  | (_, some _) => (Outcome.fatal "Failed to execute 'GetBlockConfirm' method", tr)

/-- The values of a `map[string]interface{}` asserted to be strings, as in the
loop of lines 160-162: `none` when an assertion `value.(string)` panics. -/
def allStrings : List (String × GoValue) → Option (List (String × GoValue))
  | [] => some []
  | (k, GoValue.str s) :: rest => (allStrings rest).map (fun tl => (k, GoValue.str s) :: tl)
  | _ :: _ => none

/-- The method `NodeRpc.GetCurrentBalance` (lines 145-169). -/
def GetCurrentBalance (W : World) (apiKey did network chain address : String) : Run GoValue :=
  fun tr =>
  if chain = "eth" then
    let params := GoValue.slice [GoValue.str address, GoValue.str "latest"]
    Run.andThen (assertString (RpcMethod W apiKey did network chain "eth_getBalance" params tr))
      (fun currentBalanceHex tr1 =>
        let currentBalanceHexCleaned := stringsReplaceAll currentBalanceHex "0x" ""
        let currentBalanceInt64 := (ParseInt currentBalanceHexCleaned.data 16).1
        (Outcome.ret (GoValue.str (SprintfV currentBalanceInt64)), tr1))
  else
    let params := GoValue.map [("address", GoValue.str address)]
    if chain = "token" then
      Run.andThen
        (assertMap (RpcMethod W apiKey did network chain "getreceivedbyaddress" params tr))
        (fun result tr1 =>
          match allStrings result with
          | some balance => (Outcome.ret (GoValue.map balance), tr1)
          | none => (Outcome.panic "interface conversion: not string", tr1))
    else
      Run.andThen
        (assertString (RpcMethod W apiKey did network chain "getreceivedbyaddress" params tr))
        (fun s tr1 => (Outcome.ret (GoValue.str s), tr1))

/-! ## Vocabulary of the specification -/

/-- A hexadecimal digit, either case. -/
def isHexDigit (c : Char) : Bool :=
  (48 ≤ c.toNat && c.toNat ≤ 57) || (97 ≤ c.toNat && c.toNat ≤ 102) ||
    (65 ≤ c.toNat && c.toNat ≤ 70)

/-- The value of a hexadecimal digit. -/
def hexDigitValue (c : Char) : Nat :=
  if c.toNat ≤ 57 then c.toNat - 48 else if c.toNat ≤ 70 then c.toNat - 55 else c.toNat - 87

/-- The base-16 value of a string of hexadecimal digits. -/
def hexValue (d : List Char) : Nat := d.foldl (fun acc c => 16 * acc + hexDigitValue c) 0

/-- A decimal digit. -/
def isDecDigit (c : Char) : Bool := 48 ≤ c.toNat && c.toNat ≤ 57

/-- The base-10 value of a string of decimal digits. -/
def decimalValue (d : List Char) : Nat := d.foldl (fun acc c => 10 * acc + (c.toNat - 48)) 0

/-- The string without one leading sign character. -/
def unsignedPart : List Char → List Char
  | [] => []
  | c :: rest => if c = '+' ∨ c = '-' then rest else c :: rest

/-- A valid decimal integer: an optional sign followed by one or more decimal
digits. -/
def isDecimalInteger (s : String) : Bool :=
  !(unsignedPart s.data).isEmpty && (unsignedPart s.data).all isDecDigit

/-- The value of the decimal digits that follow the optional sign, up to the
first character that is not a digit. -/
def leadingDigitsValue (s : String) : Nat :=
  decimalValue ((unsignedPart s.data).takeWhile isDecDigit)

/-- The lowercase hexadecimal digits of `n` without leading zeros, after
`0x`. -/
def hexString (n : Nat) : String := String.mk ('0' :: 'x' :: Nat.toDigits 16 n)

/-- The `RpcMethod` calls among the events. -/
def callsOf : List Event → List Event
  | [] => []
  | Event.call k d n c m p :: rest => Event.call k d n c m p :: callsOf rest
  | _ :: rest => callsOf rest

/-- The reply token `output` is accepted at time `now` under the key
`[]byte(apiKey)`: it has three segments whose header names an HMAC method
`h`, its claims `claims` pass the time checks, and its signature segment
decodes to the HMAC tag of the first two segments. -/
def Accepted (L : Lib) (now : Int) (apiKey output : String) (h : HashAlg)
    (claims : List (String × GoValue)) : Prop :=
  ∃ token p0 p1 p2, ParseUnverified L output = (some token, [p0, p1, p2], none) ∧
    token.Method = some (SigningMethod.HMAC h) ∧ token.Claims = some claims ∧
    Verify L (SigningMethod.HMAC h) (p0 ++ "." ++ p1) p2 (utf8 apiKey) = true ∧
    MapClaimsValid claims now = []

/-- The claims of an accepted reply token, computed: the hash of its HMAC
method and the decoded claims, or `none` when the token is not accepted. -/
def acceptedClaims (L : Lib) (now : Int) (apiKey output : String) :
    Option (HashAlg × List (String × GoValue)) :=
  match ParseUnverified L output with
  | (some token, [p0, p1, p2], none) =>
    match token.Method, token.Claims with
    | some (SigningMethod.HMAC h), some claims =>
      if Verify L (SigningMethod.HMAC h) (p0 ++ "." ++ p1) p2 (utf8 apiKey) = true ∧
          MapClaimsValid claims now = [] then some (h, claims)
      else none
    | _, _ => none
  | _ => none

/-- The reply token `output` is validly signed under the key `[]byte(apiKey)`:
it has three segments whose header names an HMAC method `h`, its claims are
`claims`, and its signature segment decodes to the HMAC tag of the first two
segments.  The time checks on the claims are not part of it. -/
def Signed (L : Lib) (apiKey output : String) (h : HashAlg)
    (claims : List (String × GoValue)) : Prop :=
  ∃ token p0 p1 p2, ParseUnverified L output = (some token, [p0, p1, p2], none) ∧
    token.Method = some (SigningMethod.HMAC h) ∧ token.Claims = some claims ∧
    Verify L (SigningMethod.HMAC h) (p0 ++ "." ++ p1) p2 (utf8 apiKey) = true

/-- The claims of a validly signed reply token, computed: the hash of its HMAC
method and the decoded claims, or `none` when the token is not validly signed
under the key. -/
def signedClaims (L : Lib) (apiKey output : String) :
    Option (HashAlg × List (String × GoValue)) :=
  match ParseUnverified L output with
  | (some token, [p0, p1, p2], none) =>
    match token.Method, token.Claims with
    | some (SigningMethod.HMAC h), some claims =>
      if Verify L (SigningMethod.HMAC h) (p0 ++ "." ++ p1) p2 (utf8 apiKey) = true then
        some (h, claims)
      else none
    | _, _ => none
  | _ => none

/-- The library reads back what it writes: `DecodeSegment` inverts
`EncodeSegment`, and the JSON reader finds `"alg": "HS256"` in the header text
that the JSON writer produces for an HS256 token. -/
structure ReadsBack (L : Lib) : Prop where
  segment : ∀ b, L.decodeSegment (L.encodeSegment b) = some b
  header : ∀ text, L.marshalHeader "HS256" = some text →
    ∃ m, L.jsonUnmarshal (utf8 text) = some (GoValue.map m) ∧
      mapIndex m "alg" = GoValue.str "HS256"

/-- The accumulator value of the digit loop of `ParseUint` after the digits
`d`, without the range checks. -/
def loopValue (base : Nat) (d : List Char) (acc : Nat) : Nat :=
  d.foldl (fun a c => a * base + (digitVal c).getD 0) acc

/-! ## A concrete library and concrete worlds

The definitions below instantiate `Lib` with SHA-2 (FIPS 180-4), base64url
(RFC 4648; segments are written without padding and read with or without it),
the JSON writer, and the JSON texts of the documents that the example runs
receive, so that complete runs of the client can be evaluated. -/

/-- Parameters of a SHA-2 function: word size in bits, round constants,
initial hash value, the rotation and shift amounts of the four sigma
functions, and the digest length in bytes. -/
structure Sha2 where
  w : Nat
  k : List Nat
  iv : List Nat
  bigS0 : Nat × Nat × Nat
  bigS1 : Nat × Nat × Nat
  smallS0 : Nat × Nat × Nat
  smallS1 : Nat × Nat × Nat
  outLen : Nat

/-- Rotate the `w`-bit word `x` right by `n`. -/
def rotr (w x n : Nat) : Nat := ((x >>> n) ||| (x <<< (w - n))) % 2 ^ w

/-- The message schedule: `n` further words from the last sixteen (most recent
first). -/
def sha2Schedule (p : Sha2) : Nat → List Nat → List Nat
  | 0, _ => []
  | n + 1, ws =>
    match ws with
    | w1 :: w2 :: w3 :: w4 :: w5 :: w6 :: w7 :: w8 :: w9 :: w10 :: w11 :: w12 :: w13 :: w14 ::
        w15 :: w16 :: _ =>
      let s0 := rotr p.w w15 p.smallS0.1 ^^^ rotr p.w w15 p.smallS0.2.1 ^^^ (w15 >>> p.smallS0.2.2)
      let s1 := rotr p.w w2 p.smallS1.1 ^^^ rotr p.w w2 p.smallS1.2.1 ^^^ (w2 >>> p.smallS1.2.2)
      let nw := (w16 + s0 + w7 + s1) % 2 ^ p.w
      nw :: sha2Schedule p n
        [nw, w1, w2, w3, w4, w5, w6, w7, w8, w9, w10, w11, w12, w13, w14, w15]
    | _ => []

/-- One round of the compression function on the working variables
`a, b, ..., h`. -/
def sha2Round (p : Sha2) (s : List Nat) (k w : Nat) : List Nat :=
  match s with
  | [a, b, c, d, e, f, g, h] =>
    let S1 := rotr p.w e p.bigS1.1 ^^^ rotr p.w e p.bigS1.2.1 ^^^ rotr p.w e p.bigS1.2.2
    let ch := (e &&& f) ^^^ ((e ^^^ (2 ^ p.w - 1)) &&& g)
    let t1 := (h + S1 + ch + k + w) % 2 ^ p.w
    let S0 := rotr p.w a p.bigS0.1 ^^^ rotr p.w a p.bigS0.2.1 ^^^ rotr p.w a p.bigS0.2.2
    let maj := (a &&& b) ^^^ (a &&& c) ^^^ (b &&& c)
    let t2 := (S0 + maj) % 2 ^ p.w
    [(t1 + t2) % 2 ^ p.w, a, b, c, (d + t1) % 2 ^ p.w, e, f, g]
  | _ => s

/-- All rounds, one per round constant. -/
def sha2Rounds (p : Sha2) : List Nat → List Nat → List Nat → List Nat
  | s, k :: ks, w :: ws => sha2Rounds p (sha2Round p s k w) ks ws
  | s, _, _ => s

/-- Big-endian number of a list of bytes. -/
def beNat (bs : List Nat) : Nat := bs.foldl (fun a b => a * 256 + b) 0

/-- The `k` big-endian bytes of `n`. -/
def beBytes (n : Nat) : Nat → List Nat
  | 0 => []
  | k + 1 => (n >>> (8 * k)) % 256 :: beBytes n k

/-- The words of a block: `n` words of `sz` bytes. -/
def sha2Words (sz : Nat) : Nat → List Nat → List Nat
  | 0, _ => []
  | n + 1, bs => beNat (bs.take sz) :: sha2Words sz n (bs.drop sz)

/-- The compression function on one block of sixteen words. -/
def sha2Compress (p : Sha2) (s : List Nat) (block : List Nat) : List Nat :=
  let ws := sha2Words (p.w / 8) 16 block
  let all := ws ++ sha2Schedule p (p.k.length - 16) ws.reverse
  List.zipWith (fun x y => (x + y) % 2 ^ p.w) s (sha2Rounds p s p.k all)

/-- Compression of `n` consecutive blocks. -/
def sha2Blocks (p : Sha2) : Nat → List Nat → List Nat → List Nat
  | 0, s, _ => s
  | n + 1, s, m => sha2Blocks p n (sha2Compress p s (m.take (2 * p.w))) (m.drop (2 * p.w))

/-- The digest of a message given as a list of byte values. -/
def sha2 (p : Sha2) (m : List Nat) : List Nat :=
  let blockLen := 2 * p.w
  let lenLen := p.w / 4
  let zeros := (blockLen - (m.length + 1 + lenLen) % blockLen) % blockLen
  let padded := m ++ [0x80] ++ List.replicate zeros 0 ++ beBytes (8 * m.length) lenLen
  let s := sha2Blocks p (padded.length / blockLen) p.iv padded
  (s.flatMap (fun x => beBytes x (p.w / 8))).take p.outLen

/-- The round constants of SHA-256. -/
def k256 : List Nat := [
  0x428a2f98, 0x71374491, 0xb5c0fbcf, 0xe9b5dba5, 0x3956c25b, 0x59f111f1, 0x923f82a4, 0xab1c5ed5,
  0xd807aa98, 0x12835b01, 0x243185be, 0x550c7dc3, 0x72be5d74, 0x80deb1fe, 0x9bdc06a7, 0xc19bf174,
  0xe49b69c1, 0xefbe4786, 0x0fc19dc6, 0x240ca1cc, 0x2de92c6f, 0x4a7484aa, 0x5cb0a9dc, 0x76f988da,
  0x983e5152, 0xa831c66d, 0xb00327c8, 0xbf597fc7, 0xc6e00bf3, 0xd5a79147, 0x06ca6351, 0x14292967,
  0x27b70a85, 0x2e1b2138, 0x4d2c6dfc, 0x53380d13, 0x650a7354, 0x766a0abb, 0x81c2c92e, 0x92722c85,
  0xa2bfe8a1, 0xa81a664b, 0xc24b8b70, 0xc76c51a3, 0xd192e819, 0xd6990624, 0xf40e3585, 0x106aa070,
  0x19a4c116, 0x1e376c08, 0x2748774c, 0x34b0bcb5, 0x391c0cb3, 0x4ed8aa4a, 0x5b9cca4f, 0x682e6ff3,
  0x748f82ee, 0x78a5636f, 0x84c87814, 0x8cc70208, 0x90befffa, 0xa4506ceb, 0xbef9a3f7, 0xc67178f2]

/-- The round constants of SHA-512 and SHA-384. -/
def k512 : List Nat := [
  0x428a2f98d728ae22, 0x7137449123ef65cd, 0xb5c0fbcfec4d3b2f, 0xe9b5dba58189dbbc,
  0x3956c25bf348b538, 0x59f111f1b605d019, 0x923f82a4af194f9b, 0xab1c5ed5da6d8118,
  0xd807aa98a3030242, 0x12835b0145706fbe, 0x243185be4ee4b28c, 0x550c7dc3d5ffb4e2,
  0x72be5d74f27b896f, 0x80deb1fe3b1696b1, 0x9bdc06a725c71235, 0xc19bf174cf692694,
  0xe49b69c19ef14ad2, 0xefbe4786384f25e3, 0x0fc19dc68b8cd5b5, 0x240ca1cc77ac9c65,
  0x2de92c6f592b0275, 0x4a7484aa6ea6e483, 0x5cb0a9dcbd41fbd4, 0x76f988da831153b5,
  0x983e5152ee66dfab, 0xa831c66d2db43210, 0xb00327c898fb213f, 0xbf597fc7beef0ee4,
  0xc6e00bf33da88fc2, 0xd5a79147930aa725, 0x06ca6351e003826f, 0x142929670a0e6e70,
  0x27b70a8546d22ffc, 0x2e1b21385c26c926, 0x4d2c6dfc5ac42aed, 0x53380d139d95b3df,
  0x650a73548baf63de, 0x766a0abb3c77b2a8, 0x81c2c92e47edaee6, 0x92722c851482353b,
  0xa2bfe8a14cf10364, 0xa81a664bbc423001, 0xc24b8b70d0f89791, 0xc76c51a30654be30,
  0xd192e819d6ef5218, 0xd69906245565a910, 0xf40e35855771202a, 0x106aa07032bbd1b8,
  0x19a4c116b8d2d0c8, 0x1e376c085141ab53, 0x2748774cdf8eeb99, 0x34b0bcb5e19b48a8,
  0x391c0cb3c5c95a63, 0x4ed8aa4ae3418acb, 0x5b9cca4f7763e373, 0x682e6ff3d6b2b8a3,
  0x748f82ee5defb2fc, 0x78a5636f43172f60, 0x84c87814a1f0ab72, 0x8cc702081a6439ec,
  0x90befffa23631e28, 0xa4506cebde82bde9, 0xbef9a3f7b2c67915, 0xc67178f2e372532b,
  0xca273eceea26619c, 0xd186b8c721c0c207, 0xeada7dd6cde0eb1e, 0xf57d4f7fee6ed178,
  0x06f067aa72176fba, 0x0a637dc5a2c898a6, 0x113f9804bef90dae, 0x1b710b35131c471b,
  0x28db77f523047d84, 0x32caab7b40c72493, 0x3c9ebe0a15c9bebc, 0x431d67c49c100d4c,
  0x4cc5d4becb3e42b6, 0x597f299cfc657e2a, 0x5fcb6fab3ad6faec, 0x6c44198c4a475817]

/-- The function SHA-256. -/
def sha256Params : Sha2 :=
  ⟨32, k256,
    [0x6a09e667, 0xbb67ae85, 0x3c6ef372, 0xa54ff53a,
     0x510e527f, 0x9b05688c, 0x1f83d9ab, 0x5be0cd19],
    (2, 13, 22), (6, 11, 25), (7, 18, 3), (17, 19, 10), 32⟩

/-- The function SHA-512. -/
def sha512Params : Sha2 :=
  ⟨64, k512, [
      0x6a09e667f3bcc908, 0xbb67ae8584caa73b, 0x3c6ef372fe94f82b, 0xa54ff53a5f1d36f1,
      0x510e527fade682d1, 0x9b05688c2b3e6c1f, 0x1f83d9abfb41bd6b, 0x5be0cd19137e2179],
    (28, 34, 39), (14, 18, 41), (1, 8, 7), (19, 61, 6), 64⟩

/-- The function SHA-384. -/
def sha384Params : Sha2 :=
  ⟨64, k512, [
      0xcbbb9d5dc1059ed8, 0x629a292a367cd507, 0x9159015a3070dd17, 0x152fecd8f70e5939,
      0x67332667ffc00b31, 0x8eb44a8768581511, 0xdb0c2e0d64f98fa7, 0x47b5481dbefa4fa4],
    (28, 34, 39), (14, 18, 41), (1, 8, 7), (19, 61, 6), 48⟩

/-- The digest functions on bytes. -/
def sha2Hash (h : HashAlg) (m : List UInt8) : List UInt8 :=
  let p := match h with
    | HashAlg.SHA256 => sha256Params
    | HashAlg.SHA384 => sha384Params
    | HashAlg.SHA512 => sha512Params
  (sha2 p (m.map UInt8.toNat)).map UInt8.ofNat

/-- The base64url alphabet. -/
def b64Alphabet : List Char :=
  "ABCDEFGHIJKLMNOPQRSTUVWXYZabcdefghijklmnopqrstuvwxyz0123456789-_".data

/-- The character of a 6-bit value. -/
def b64Char (i : Nat) : Char := b64Alphabet.getD i 'A'

/-- The 6-bit value of a character of the alphabet. -/
def b64Index (c : Char) : Option Nat :=
  let i := b64Alphabet.indexOf c
  if i < 64 then some i else none

/-- Base64 encoding of a list of byte values, without padding. -/
def b64Encode : List Nat → List Char
  | a :: b :: c :: rest =>
    b64Char (a / 4) :: b64Char (a % 4 * 16 + b / 16) :: b64Char (b % 16 * 4 + c / 64) ::
      b64Char (c % 64) :: b64Encode rest
  | [a, b] => [b64Char (a / 4), b64Char (a % 4 * 16 + b / 16), b64Char (b % 16 * 4)]
  | [a] => [b64Char (a / 4), b64Char (a % 4 * 16)]
  | [] => []

/-- Base64 decoding of a padded text: groups of four characters of the
alphabet, the last group possibly ending in one or two `=`. -/
def b64DecodePadded : List Char → Option (List Nat)
  | a :: b :: c :: d :: rest =>
    if rest.isEmpty ∧ d = '=' then
      if c = '=' then
        match b64Index a, b64Index b with
        | some i, some j => some [i * 4 + j / 16]
        | _, _ => none
      else
        match b64Index a, b64Index b, b64Index c with
        | some i, some j, some k => some [i * 4 + j / 16, j % 16 * 16 + k / 4]
        | _, _, _ => none
    else
      match b64Index a, b64Index b, b64Index c, b64Index d, b64DecodePadded rest with
      | some i, some j, some k, some l, some tl =>
        some ((i * 4 + j / 16) :: (j % 16 * 16 + k / 4) :: (k % 4 * 64 + l) :: tl)
      | _, _, _, _, _ => none
  | [] => some []
  | _ => none

/-- The function `jwt.EncodeSegment`. -/
def concreteEncodeSegment (bs : List UInt8) : String :=
  String.mk (b64Encode (bs.map UInt8.toNat))

/-- The function `jwt.DecodeSegment`: the segment is padded with `=` to a
multiple of four characters and decoded by `base64.URLEncoding`, which skips
line breaks. -/
def concreteDecodeSegment (s : String) : Option (List UInt8) :=
  let padded := s.data ++ List.replicate ((4 - s.data.length % 4) % 4) '='
  (b64DecodePadded (padded.filter (fun c => c ≠ '\r' ∧ c ≠ '\n'))).map
    (fun l => l.map UInt8.ofNat)

/-- The escape of one character in a JSON string as `encoding/json` writes it
(up to Go 1.21): the quote, the backslash, line feed, carriage return and tab
get a short escape; the other control characters, `<`, `>`, `&` and the line
separators U+2028, U+2029 are written as `\u` and four hexadecimal digits. -/
def jsonEscapeChar (c : Char) : List Char :=
  if c = '"' then ['\\', '"']
  else if c = '\\' then ['\\', '\\']
  else if c = '\n' then ['\\', 'n']
  else if c = '\r' then ['\\', 'r']
  else if c = '\t' then ['\\', 't']
  else if c.toNat < 32 ∨ c = '<' ∨ c = '>' ∨ c = '&' then
    ['\\', 'u', '0', '0', Nat.digitChar (c.toNat / 16), Nat.digitChar (c.toNat % 16)]
  else if c.toNat = 0x2028 then ['\\', 'u', '2', '0', '2', '8']
  else if c.toNat = 0x2029 then ['\\', 'u', '2', '0', '2', '9']
  else [c]

/-- The JSON string literal of a string. -/
def jsonQuote (s : String) : String :=
  String.mk ('"' :: s.data.flatMap jsonEscapeChar ++ ['"'])

/-- The texts joined by commas. -/
def joinComma : List String → String
  | [] => ""
  | [t] => t
  | t :: rest => t ++ "," ++ joinComma rest

/-- The order in which `json.Marshal` writes map keys: the order of the strings
as byte sequences. -/
def keyLe : List Char → List Char → Bool
  | [], _ => true
  | _ :: _, [] => false
  | a :: as, b :: bs => decide (a.toNat < b.toNat) || (decide (a.toNat = b.toNat) && keyLe as bs)

mutual

/-- The JSON text that `json.Marshal` writes for a value: `null`, booleans,
integers, strings, slices, and maps with their entries in the order of their
keys.  The result is `none` for a channel, which `json.Marshal` refuses, also
inside a slice or a map.  A `float64` is written when it is an integer below
`10^21` in absolute value, where `json.Marshal` writes its digits; the other
floats are outside this printer, and the example runs pass none. -/
def concreteMarshalParams : GoValue → Option String
  | GoValue.nil => some "null"
  | GoValue.bool b => some (if b then "true" else "false")
  | GoValue.int i => some (SprintfV i)
  | GoValue.float64 q =>
    if q.den = 1 ∧ |q.num| < 10 ^ 21 then some (SprintfV q.num) else none
  | GoValue.str s => some (jsonQuote s)
  | GoValue.slice xs => (concreteMarshalElems xs).map (fun ts => "[" ++ joinComma ts ++ "]")
  | GoValue.map m =>
    (concreteMarshalEntries m).map (fun es =>
      "\x7b" ++ joinComma ((es.insertionSort (fun a b => keyLe a.1.data b.1.data = true)).map
        (fun e => jsonQuote e.1 ++ ":" ++ e.2)) ++ "\x7d")
  | GoValue.chan => none

/-- The JSON texts of the elements of a slice. -/
def concreteMarshalElems : List GoValue → Option (List String)
  | [] => some []
  | v :: rest =>
    match concreteMarshalParams v, concreteMarshalElems rest with
    | some t, some ts => some (t :: ts)
    | _, _ => none

/-- The keys of a map with the JSON texts of their values. -/
def concreteMarshalEntries : List (String × GoValue) → Option (List (String × String))
  | [] => some []
  | (k, v) :: rest =>
    match concreteMarshalParams v, concreteMarshalEntries rest with
    | some t, some ts => some ((k, t) :: ts)
    | _, _ => none

end

/-- The text of `json.Marshal(JWTInfoNodeRpc{...})`. -/
def concreteMarshalInfo (d : JWTInfoNodeRpc) : Option String :=
  (concreteMarshalParams d.Params).map (fun p =>
    "\x7b\"network\":" ++ jsonQuote d.Network ++ ",\"chain\":" ++ jsonQuote d.Chain ++
      ",\"method\":" ++ jsonQuote d.Method ++ ",\"params\":" ++ p ++ "\x7d")

/-- The text of `json.Marshal` of the header `{"typ": "JWT", "alg": alg}`: map
keys are written in sorted order. -/
def concreteMarshalHeader (alg : String) : Option String :=
  some ("\x7b\"alg\":" ++ jsonQuote alg ++ ",\"typ\":\"JWT\"\x7d")

/-- Modelled from the spec: the JSON field names of `JWTClaim`, whose
declaration is not in `node_rpc.go`.  The spec (section 6) names the payload
field `jwt_info`; `jwt.StandardClaims` tags `ExpiresAt` as `exp,omitempty`.
This is the text of `json.Marshal` of a `JWTClaim` with these names. -/
def concreteMarshalClaims (c : JWTClaim) : Option String :=
  some ("\x7b\"jwt_info\":" ++ jsonQuote c.JwtInfo ++
    (if c.ExpiresAt = 0 then "" else ",\"exp\":" ++ SprintfV c.ExpiresAt) ++ "\x7d")

/-- The JSON documents that occur in the reply tokens of the example runs,
each with the value `encoding/json` decodes it to. -/
def jsonDocuments : List (String × GoValue) := [
  ("\x7b\"alg\":\"HS256\",\"typ\":\"JWT\"\x7d",
    GoValue.map [("alg", GoValue.str "HS256"), ("typ", GoValue.str "JWT")]),
  ("\x7b\"alg\":\"HS512\",\"typ\":\"JWT\"\x7d",
    GoValue.map [("alg", GoValue.str "HS512"), ("typ", GoValue.str "JWT")]),
  ("\x7b\"alg\":\"none\",\"typ\":\"JWT\"\x7d",
    GoValue.map [("alg", GoValue.str "none"), ("typ", GoValue.str "JWT")]),
  ("\x7b\"exp\":4102444800,\"jwt_info\":\x7b\"result\":\"0x1a\"\x7d\x7d",
    GoValue.map [("exp", GoValue.float64 4102444800),
      ("jwt_info", GoValue.map [("result", GoValue.str "0x1a")])]),
  ("\x7b\"exp\":4102444800,\"jwt_info\":\x7b\"result\":\"0x0\"\x7d\x7d",
    GoValue.map [("exp", GoValue.float64 4102444800),
      ("jwt_info", GoValue.map [("result", GoValue.str "0x0")])]),
  ("\x7b\"exp\":4102444800,\"jwt_info\":\x7b\"result\":\"0x3039\"\x7d\x7d",
    GoValue.map [("exp", GoValue.float64 4102444800),
      ("jwt_info", GoValue.map [("result", GoValue.str "0x3039")])]),
  ("\x7b\"exp\":4102444800,\"jwt_info\":\x7b\"result\":\"0x5\"\x7d\x7d",
    GoValue.map [("exp", GoValue.float64 4102444800),
      ("jwt_info", GoValue.map [("result", GoValue.str "0x5")])]),
  ("\x7b\"exp\":4102444800,\"jwt_info\":\x7b\"result\":\x7b\"hash\":" ++
      "\"0x88e96d4537bea4d9c05d12549907b32561d3bf31f45aae734cdc119f13406cb6\"" ++
      ",\"number\":\"0x3039\",\"transactions\":[]\x7d\x7d\x7d",
    GoValue.map [("exp", GoValue.float64 4102444800),
      ("jwt_info", GoValue.map [("result", GoValue.map [("hash", GoValue.str
          "0x88e96d4537bea4d9c05d12549907b32561d3bf31f45aae734cdc119f13406cb6"),
        ("number", GoValue.str "0x3039"),
      ("transactions", GoValue.slice [])])])]),
  ("\x7b\"exp\":4102444800,\"jwt_info\":\x7b\"result\":\x7b\"hash\":" ++
      "\"0x2ce94342df186bab4165c268c43ab982d360c9474f429fec5565adfc5d1f258b\"" ++
      ",\"number\":\"0x5\",\"transactions\":[]\x7d\x7d\x7d",
    GoValue.map [("exp", GoValue.float64 4102444800),
      ("jwt_info", GoValue.map [("result", GoValue.map [("hash", GoValue.str
          "0x2ce94342df186bab4165c268c43ab982d360c9474f429fec5565adfc5d1f258b"),
        ("number", GoValue.str "0x5"),
      ("transactions", GoValue.slice [])])])]),
  ("\x7b\"exp\":4102444800,\"jwt_info\":\x7b\"result\":\x7b\"hash\":" ++
      "\"0xd4e56740f876aef8c010b86a40d5f56745a118d0906a34e69aec8c0db1cb8fa3\"" ++
      ",\"number\":\"0x0\",\"transactions\":[]\x7d\x7d\x7d",
    GoValue.map [("exp", GoValue.float64 4102444800),
      ("jwt_info", GoValue.map [("result", GoValue.map [("hash", GoValue.str
          "0xd4e56740f876aef8c010b86a40d5f56745a118d0906a34e69aec8c0db1cb8fa3"),
        ("number", GoValue.str "0x0"),
      ("transactions", GoValue.slice [])])])]),
  ("\x7b\"exp\":4102444800,\"jwt_info\":\x7b\"result\":\"0xde0b6b3a7640000\"\x7d\x7d",
    GoValue.map [("exp", GoValue.float64 4102444800),
      ("jwt_info", GoValue.map [("result", GoValue.str "0xde0b6b3a7640000")])]),
  ("\x7b\"exp\":4102444800,\"jwt_info\":\x7b\"result\":\"0x8000000000000000\"\x7d\x7d",
    GoValue.map [("exp", GoValue.float64 4102444800),
      ("jwt_info", GoValue.map [("result", GoValue.str "0x8000000000000000")])]),
  ("\x7b\"exp\":0,\"jwt_info\":\x7b\"result\":\"0x1a\"\x7d\x7d",
    GoValue.map [("exp", GoValue.float64 0),
      ("jwt_info", GoValue.map [("result", GoValue.str "0x1a")])]),
  ("\x7b\"exp\":1600000000,\"jwt_info\":\x7b\"result\":\"0x1a\"\x7d\x7d",
    GoValue.map [("exp", GoValue.float64 1600000000),
      ("jwt_info", GoValue.map [("result", GoValue.str "0x1a")])]),
  ("\x7b\"exp\":4102444800,\"jwt_info\":\x7b\"result\":null\x7d\x7d",
    GoValue.map [("exp", GoValue.float64 4102444800),
      ("jwt_info", GoValue.map [("result", GoValue.nil)])]),
  ("\x7b\"exp\":4102444800,\"jwt_info\":\x7b\"result\":\"0x1a\"\x7d,\"nbf\":4000000000\x7d",
    GoValue.map [("exp", GoValue.float64 4102444800),
      ("jwt_info", GoValue.map [("result", GoValue.str "0x1a")]),
      ("nbf", GoValue.float64 4000000000)]),
  ("\x7b\"exp\":4102444800,\"iat\":4000000000,\"jwt_info\":\x7b\"result\":\"0x1a\"\x7d\x7d",
    GoValue.map [("exp", GoValue.float64 4102444800), ("iat", GoValue.float64 4000000000),
      ("jwt_info", GoValue.map [("result", GoValue.str "0x1a")])]),
  ("\x7b\"exp\":4102444800,\"nbf\":4000000000\x7d",
    GoValue.map [("exp", GoValue.float64 4102444800), ("nbf", GoValue.float64 4000000000)]),
  ("\x7b\"exp\":4102444800\x7d",
    GoValue.map [("exp", GoValue.float64 4102444800)]),
  ("\x7b\"exp\":4102444800,\"jwt_info\":\x7b\x7d\x7d",
    GoValue.map [("exp", GoValue.float64 4102444800), ("jwt_info", GoValue.map [])])]

/-- JSON decoding restricted to `jsonDocuments`. -/
def concreteUnmarshal (bs : List UInt8) : Option GoValue :=
  (jsonDocuments.find? (fun d => decide (utf8 d.1 = bs))).map Prod.snd

/-- The text of `fmt.Sprintf("%.0f", f)`: the nearest integer, ties to even. -/
def concreteSprintfF0 (q : ℚ) : String :=
  let f := Rat.floor q
  let r : Int :=
    if q - f < 1 / 2 then f else if q - f > 1 / 2 then f + 1 else if f % 2 = 0 then f else f + 1
  if r = 0 ∧ q < 0 then "-0" else SprintfV r

/-- The concrete library. -/
def concreteLib : Lib where
  marshalInfo := concreteMarshalInfo
  marshalHeader := concreteMarshalHeader
  marshalClaims := concreteMarshalClaims
  encodeSegment := concreteEncodeSegment
  decodeSegment := concreteDecodeSegment
  jsonUnmarshal := concreteUnmarshal
  jsonDecode := concreteUnmarshal
  hash := sha2Hash
  sprintfF0 := concreteSprintfF0

/-- The number of requests handed to the connection so far. -/
def invokeCount : List Event → Nat
  | [] => 0
  | Event.invoke _ :: rest => invokeCount rest + 1
  | _ :: rest => invokeCount rest

/-- A world over the concrete library in which the remote endpoint answers
the requests, in order, with the given replies, the clock reads 1700000000
(2023-11-14) and tokens are issued with 30 seconds to live. -/
def scriptedWorld (replies : List Response) : World where
  lib := concreteLib
  expiresAt := fun _ => 1700000030
  now := fun _ => 1700000000
  remote := fun tr _ =>
    match replies.get? (invokeCount tr) with
    | some r => Except.ok r
    | none => Except.error "rpc error: code = Unavailable"

/-- A reply token under the key `test-api-key`: result `"0x1a"`, expiring in 2100. -/
def tokenHeight1a : String :=
  "eyJhbGciOiJIUzI1NiIsInR5cCI6IkpXVCJ9." ++
  "eyJleHAiOjQxMDI0NDQ4MDAsImp3dF9pbmZvIjp7InJlc3VsdCI6IjB4MWEifX0." ++
  "sqkHwvX_qXREKP2O_QNVY-FwI-dGQTWa_MC9Eu6x8aU"

/-- A reply token under the key `test-api-key`: result `"0x0"`. -/
def tokenHeight0 : String :=
  "eyJhbGciOiJIUzI1NiIsInR5cCI6IkpXVCJ9." ++
  "eyJleHAiOjQxMDI0NDQ4MDAsImp3dF9pbmZvIjp7InJlc3VsdCI6IjB4MCJ9fQ." ++
  "d56yEzkC42wzTXm6LmsK1ne8VrbrkeUplcXTwUgAYdA"

/-- A reply token under the key `test-api-key`: result `"0x3039"`. -/
def tokenHeight3039 : String :=
  "eyJhbGciOiJIUzI1NiIsInR5cCI6IkpXVCJ9." ++
  "eyJleHAiOjQxMDI0NDQ4MDAsImp3dF9pbmZvIjp7InJlc3VsdCI6IjB4MzAzOSJ9fQ." ++
  "hrOYO_pfMu_6-0EMSX9RoEs0LT3uE6aiTvHHSQliDdM"

/-- A reply token under the key `test-api-key`: result `"0x5"`. -/
def tokenHeight5 : String :=
  "eyJhbGciOiJIUzI1NiIsInR5cCI6IkpXVCJ9." ++
  "eyJleHAiOjQxMDI0NDQ4MDAsImp3dF9pbmZvIjp7InJlc3VsdCI6IjB4NSJ9fQ." ++
  "z8y7W5AyaaubVTCekEbB9PuXnIexruPgz8Olu3WQ0-A"

/-- A reply token under the key `test-api-key`: result the block object of height 12345. -/
def tokenBlock3039 : String :=
  "eyJhbGciOiJIUzI1NiIsInR5cCI6IkpXVCJ9." ++
  "eyJleHAiOjQxMDI0NDQ4MDAsImp3dF9pbmZvIjp7InJlc3VsdCI6eyJoYXNoIjoiMHg4OGU5NmQ0NTM3YmVh" ++
  "NGQ5YzA1ZDEyNTQ5OTA3YjMyNTYxZDNiZjMxZjQ1YWFlNzM0Y2RjMTE5ZjEzNDA2Y2I2IiwibnVtYmVyIjoi" ++
  "MHgzMDM5IiwidHJhbnNhY3Rpb25zIjpbXX19fQ." ++
  "OijxznwjIuat7f2C7niES6hJFQZa-scvYhZbw7t_F7Y"

/-- A reply token under the key `test-api-key`: result the block object of height 5. -/
def tokenBlock5 : String :=
  "eyJhbGciOiJIUzI1NiIsInR5cCI6IkpXVCJ9." ++
  "eyJleHAiOjQxMDI0NDQ4MDAsImp3dF9pbmZvIjp7InJlc3VsdCI6eyJoYXNoIjoiMHgyY2U5NDM0MmRmMTg2" ++
  "YmFiNDE2NWMyNjhjNDNhYjk4MmQzNjBjOTQ3NGY0MjlmZWM1NTY1YWRmYzVkMWYyNThiIiwibnVtYmVyIjoi" ++
  "MHg1IiwidHJhbnNhY3Rpb25zIjpbXX19fQ." ++
  "rX-kchgcqrrx8lkCiATQiUQBikNvuVTcMeVGF1wpbYM"

/-- A reply token under the key `test-api-key`: result the block object of height 0. -/
def tokenBlock0 : String :=
  "eyJhbGciOiJIUzI1NiIsInR5cCI6IkpXVCJ9." ++
  "eyJleHAiOjQxMDI0NDQ4MDAsImp3dF9pbmZvIjp7InJlc3VsdCI6eyJoYXNoIjoiMHhkNGU1Njc0MGY4NzZh" ++
  "ZWY4YzAxMGI4NmE0MGQ1ZjU2NzQ1YTExOGQwOTA2YTM0ZTY5YWVjOGMwZGIxY2I4ZmEzIiwibnVtYmVyIjoi" ++
  "MHgwIiwidHJhbnNhY3Rpb25zIjpbXX19fQ." ++
  "6mM1rdNFxqxgVC4hoT_Omgl8d1vKbUS45V2HHGWHD9E"

/-- A reply token under the key `test-api-key`: result `"0xde0b6b3a7640000"` (10^18). -/
def tokenBalanceOneEther : String :=
  "eyJhbGciOiJIUzI1NiIsInR5cCI6IkpXVCJ9." ++
  "eyJleHAiOjQxMDI0NDQ4MDAsImp3dF9pbmZvIjp7InJlc3VsdCI6IjB4ZGUwYjZiM2E3NjQwMDAwIn19." ++
  "r7VrkBxes8hv-VGTyY_t4trAkncDjzAuC1hOuG1FDo8"

/-- A reply token under the key `test-api-key`: result `"0x8000000000000000"` (2^63). -/
def tokenBalanceBig : String :=
  "eyJhbGciOiJIUzI1NiIsInR5cCI6IkpXVCJ9." ++
  "eyJleHAiOjQxMDI0NDQ4MDAsImp3dF9pbmZvIjp7InJlc3VsdCI6IjB4ODAwMDAwMDAwMDAwMDAwMCJ9fQ." ++
  "PAHGATSU1eq81wR-Mx4yLeEsyqmLlWzmNPj5lbGlGuA"

/-- A reply token under the key `test-api-key`: result `"0x1a"` and `exp` 0. -/
def tokenExpZero : String :=
  "eyJhbGciOiJIUzI1NiIsInR5cCI6IkpXVCJ9." ++
  "eyJleHAiOjAsImp3dF9pbmZvIjp7InJlc3VsdCI6IjB4MWEifX0." ++
  "pJXOHFXu98ogB9OXsunjrgQNxLXWUNBLypsLsD0yt6w"

/-- A reply token under the key `test-api-key`: result `"0x1a"` and `exp` 1600000000. -/
def tokenExpired : String :=
  "eyJhbGciOiJIUzI1NiIsInR5cCI6IkpXVCJ9." ++
  "eyJleHAiOjE2MDAwMDAwMDAsImp3dF9pbmZvIjp7InJlc3VsdCI6IjB4MWEifX0." ++
  "ekyGc5jf3YD0Te93FCq3g7IjRhxTAE0Fq5SNnoM73bo"

/-- A reply token under the key `test-api-key`: result `null`. -/
def tokenResultNull : String :=
  "eyJhbGciOiJIUzI1NiIsInR5cCI6IkpXVCJ9." ++
  "eyJleHAiOjQxMDI0NDQ4MDAsImp3dF9pbmZvIjp7InJlc3VsdCI6bnVsbH19." ++
  "loVljH1wQfg3Ic5A8v-T6hSwB61fo4i2kx7EGF6Kwio"

/-- A reply token under the key `test-api-key`: no `jwt_info`. -/
def tokenNoJwtInfo : String :=
  "eyJhbGciOiJIUzI1NiIsInR5cCI6IkpXVCJ9." ++
  "eyJleHAiOjQxMDI0NDQ4MDB9." ++
  "xtwLsNDwgFkjiDGeX52zehQMq8L5LyzhnCjBVhDpg-c"

/-- A reply token under the key `test-api-key`: a `jwt_info` without `result`. -/
def tokenNoResult : String :=
  "eyJhbGciOiJIUzI1NiIsInR5cCI6IkpXVCJ9." ++
  "eyJleHAiOjQxMDI0NDQ4MDAsImp3dF9pbmZvIjp7fX0." ++
  "yfow1LWsUueXqwpBRVioBek5xeGk30P1su1S4e8d55A"

/-- A reply token under the key `test-api-key`: result `"0x1a"`, signed with HS512. -/
def tokenHS512 : String :=
  "eyJhbGciOiJIUzUxMiIsInR5cCI6IkpXVCJ9." ++
  "eyJleHAiOjQxMDI0NDQ4MDAsImp3dF9pbmZvIjp7InJlc3VsdCI6IjB4MWEifX0." ++
  "Z5KJtmtgPEfyv5MC-YbZc-oozxTHjJzGIlFGMprhPnX_kZJm6iUqKaOFELi3l9anor8m-bQjM_3i2-wuDKDt" ++
  "_w"

/-- A reply token unsigned: result `"0x1a"`, method `none`, no signature. -/
def tokenAlgNone : String :=
  "eyJhbGciOiJub25lIiwidHlwIjoiSldUIn0." ++
  "eyJleHAiOjQxMDI0NDQ4MDAsImp3dF9pbmZvIjp7InJlc3VsdCI6IjB4MWEifX0."

/-- A reply token under the key `another-api-key`: result `"0x1a"`, expiring in
2100. -/
def tokenOtherKey : String :=
  "eyJhbGciOiJIUzI1NiIsInR5cCI6IkpXVCJ9." ++
  "eyJleHAiOjQxMDI0NDQ4MDAsImp3dF9pbmZvIjp7InJlc3VsdCI6IjB4MWEifX0." ++
  "5lvbBzRW-e5wwJMEpZJ1QazEX_5s9z5yASaEcckS7So"

/-- A reply token under the key `test-api-key`: result `"0x1a"`, expiring in
2100, with `nbf` 4000000000 (the year 2096). -/
def tokenNotYetValid : String :=
  "eyJhbGciOiJIUzI1NiIsInR5cCI6IkpXVCJ9." ++
  "eyJleHAiOjQxMDI0NDQ4MDAsImp3dF9pbmZvIjp7InJlc3VsdCI6IjB4MWEifSwibmJmIjo0MDAwMDAwMDAwfQ." ++
  "Vx62-veRFIms7smRkUjoyqxDWz3bopMaGGEMtNrIGgs"

/-- A reply token under the key `test-api-key`: result `"0x1a"`, expiring in
2100, with `iat` 4000000000 (the year 2096). -/
def tokenIssuedLater : String :=
  "eyJhbGciOiJIUzI1NiIsInR5cCI6IkpXVCJ9." ++
  "eyJleHAiOjQxMDI0NDQ4MDAsImlhdCI6NDAwMDAwMDAwMCwiand0X2luZm8iOnsicmVzdWx0IjoiMHgxYSJ9fQ." ++
  "b2h7SloNirEClC4ISpXepXZ0PWoS-sekhJtV713KVAA"

/-- A reply token under the key `test-api-key`: no `jwt_info`, expiring in 2100,
with `nbf` 4000000000 (the year 2096). -/
def tokenNotYetValidNoInfo : String :=
  "eyJhbGciOiJIUzI1NiIsInR5cCI6IkpXVCJ9." ++
  "eyJleHAiOjQxMDI0NDQ4MDAsIm5iZiI6NDAwMDAwMDAwMH0." ++
  "gjuvdFmQH1nbs-kr9xbZO-6XthSHZdKzDFbGCGXR96U"

/-- The claims text of `tokenHeight1a`. -/
def claimsTextHeight1a : String :=
  "\x7b\"exp\":4102444800,\"jwt_info\":\x7b\"result\":\"0x1a\"\x7d\x7d"

/-- A reply token under the one-byte key `k`: result `"0x1a"`, expiring in 2100. -/
def tokenSignedK : String :=
  "eyJhbGciOiJIUzI1NiIsInR5cCI6IkpXVCJ9." ++
  "eyJleHAiOjQxMDI0NDQ4MDAsImp3dF9pbmZvIjp7InJlc3VsdCI6IjB4MWEifX0." ++
  "vdt_B6-CiRlk5bJBX5rckJEMqgZYESpS7aNNjzOiDqo"

/-- The request token under the key `test-api-key` whose `jwt_info` is the
empty string, with `exp` 1700000030. -/
def tokenEmptyInfo : String :=
  "eyJhbGciOiJIUzI1NiIsInR5cCI6IkpXVCJ9." ++
  "eyJqd3RfaW5mbyI6IiIsImV4cCI6MTcwMDAwMDAzMH0." ++
  "CALedDN3JzotFVH48e2G8vkyxQl36yCqL7W8yVxvcps"

/-- The 64-character API key whose characters have the given ASCII codes. -/
def asciiKey (k : Fin 64 → Fin 128) : String :=
  String.mk ((List.finRange 64).map (fun i => Char.ofNat (k i)))

/-! ## Lemmas and theorems -/

set_option maxRecDepth 100000

/-! ### Digits: `Nat.toDigits` and the digit loop of `ParseUint` -/

theorem digitVal_digitChar (k : Nat) (hk : k < 16) : digitVal (Nat.digitChar k) = some k := by
  interval_cases k <;> decide

theorem toDigitsCore_eq (b : Nat) (hb : 2 ≤ b) : ∀ (n f : Nat) (ds : List Char), n < f →
    Nat.toDigitsCore b f n ds = Nat.toDigitsCore b (n + 1) n [] ++ ds := by
  intro n
  induction n using Nat.strong_induction_on with
  | _ n ih =>
    intro f ds hf
    obtain ⟨f', rfl⟩ : ∃ f', f = f' + 1 := ⟨f - 1, by omega⟩
    simp only [Nat.toDigitsCore]
    by_cases h0 : n / b = 0
    · simp [h0]
    · have hlt : n / b < n := Nat.div_lt_self (by
        rcases Nat.eq_zero_or_pos n with h | h
        · subst h; simp at h0
        · exact h) hb
      simp only [h0, if_false]
      rw [ih (n / b) hlt f' _ (by omega), ih (n / b) hlt n [_] hlt]
      simp

theorem toDigits_step (b : Nat) (hb : 2 ≤ b) (n : Nat) (h0 : n / b ≠ 0) :
    Nat.toDigits b n = Nat.toDigits b (n / b) ++ [Nat.digitChar (n % b)] := by
  have hlt : n / b < n := Nat.div_lt_self (by
    rcases Nat.eq_zero_or_pos n with h | h
    · subst h; simp at h0
    · exact h) hb
  unfold Nat.toDigits
  conv_lhs => simp only [Nat.toDigitsCore]
  simp only [h0, if_false]
  rw [toDigitsCore_eq b hb (n / b) n _ hlt]

theorem toDigits_small (b : Nat) (n : Nat) (h0 : n / b = 0) :
    Nat.toDigits b n = [Nat.digitChar (n % b)] := by
  unfold Nat.toDigits
  simp [Nat.toDigitsCore, h0]

theorem digitVal_of_isHexDigit (c : Char) (h : isHexDigit c = true) :
    digitVal c = some (hexDigitValue c) ∧ hexDigitValue c < 16 := by
  unfold isHexDigit at h
  unfold digitVal lower hexDigitValue
  generalize c.toNat = n at h ⊢
  simp only [Bool.or_eq_true, Bool.and_eq_true, decide_eq_true_eq] at h
  rcases h with (⟨h1, h2⟩ | ⟨h1, h2⟩) | ⟨h1, h2⟩ <;> interval_cases n <;> decide

theorem loopValue_ge (base : Nat) (hb : 1 ≤ base) : ∀ (d : List Char) (acc : Nat),
    acc ≤ loopValue base d acc := by
  intro d
  induction d with
  | nil => intro acc; simp [loopValue]
  | cons c cs ih =>
    intro acc
    simp only [loopValue, List.foldl_cons]
    have := ih (acc * base + (digitVal c).getD 0)
    simp only [loopValue] at this
    calc acc ≤ acc * base := Nat.le_mul_of_pos_right acc hb
      _ ≤ acc * base + (digitVal c).getD 0 := Nat.le_add_right _ _
      _ ≤ _ := this

theorem ParseUintLoop_ok (base : Nat) (hb : 2 ≤ base) : ∀ (d : List Char) (acc : Nat),
    (∀ c ∈ d, ∃ k, digitVal c = some k ∧ k < base) →
    loopValue base d acc ≤ maxUint64 →
    ParseUintLoop base d acc = (loopValue base d acc, none) := by
  intro d
  induction d with
  | nil => intro acc _ _; simp [ParseUintLoop, loopValue]
  | cons c cs ih =>
    intro acc hd hv
    obtain ⟨k, hk, hkb⟩ := hd c (List.mem_cons_self _ _)
    have hv' : loopValue base cs (acc * base + k) ≤ maxUint64 := by
      simpa [loopValue, hk] using hv
    have hge := loopValue_ge base (by omega) cs (acc * base + k)
    have hmax : maxUint64 = 2 ^ 64 - 1 := rfl
    have hle : acc * base + k ≤ 2 ^ 64 - 1 := by omega
    have hacc : ¬ (acc ≥ maxUint64 / base + 1) := by
      intro hcon
      have h1 : maxUint64 / base < acc := by omega
      have h2 : maxUint64 < acc * base := by
        have := (Nat.div_lt_iff_lt_mul (by omega : 0 < base)).1 h1
        exact this
      omega
    have e0 : acc * base % 2 ^ 64 = acc * base := Nat.mod_eq_of_lt (by omega)
    have e1 : (acc * base + k) % 2 ^ 64 = acc * base + k := Nat.mod_eq_of_lt (by omega)
    rw [ParseUintLoop]
    simp only [hk]
    rw [if_neg (by omega), if_neg hacc]
    simp only [e0, e1]
    rw [if_neg (by rw [hmax]; omega)]
    rw [ih (acc * base + k) (fun c hc => hd c (List.mem_cons_of_mem _ hc)) hv']
    simp [loopValue, hk]

theorem loopValue_hex_acc (d : List Char) (hd : ∀ c ∈ d, isHexDigit c = true) (acc : Nat) :
    loopValue 16 d acc = d.foldl (fun a c => 16 * a + hexDigitValue c) acc := by
  unfold loopValue
  induction d generalizing acc with
  | nil => rfl
  | cons c cs ih =>
    simp only [List.foldl_cons]
    rw [(digitVal_of_isHexDigit c (hd c (List.mem_cons_self _ _))).1]
    simp only [Option.getD_some]
    rw [ih (fun c hc => hd c (List.mem_cons_of_mem _ hc))]
    congr 1
    ring

theorem loopValue_hex (d : List Char) (hd : ∀ c ∈ d, isHexDigit c = true) :
    loopValue 16 d 0 = hexValue d := loopValue_hex_acc d hd 0

theorem loopValue_append (b : Nat) (l : List Char) (c : Char) (acc : Nat) :
    loopValue b (l ++ [c]) acc = loopValue b l acc * b + (digitVal c).getD 0 := by
  simp [loopValue, List.foldl_append]

theorem toDigits_spec (b : Nat) (hb : 2 ≤ b) (hb16 : b ≤ 16) : ∀ n : Nat,
    loopValue b (Nat.toDigits b n) 0 = n ∧
    (∀ c ∈ Nat.toDigits b n, ∃ k, digitVal c = some k ∧ k < b) ∧
    Nat.toDigits b n ≠ [] := by
  intro n
  induction n using Nat.strong_induction_on with
  | _ n ih =>
    have hmod : n % b < b := Nat.mod_lt _ (by omega)
    have hdc : digitVal (Nat.digitChar (n % b)) = some (n % b) :=
      digitVal_digitChar _ (by omega)
    by_cases h0 : n / b = 0
    · rw [toDigits_small b n h0]
      refine ⟨?_, ?_, by simp⟩
      · have : n % b = n := by
          apply Nat.mod_eq_of_lt
          exact (Nat.div_eq_zero_iff (by omega)).1 h0
        rw [this] at hdc
        simp [loopValue, hdc, this]
      · intro c hc
        simp only [List.mem_singleton] at hc
        subst hc
        exact ⟨_, hdc, hmod⟩
    · have hlt : n / b < n := Nat.div_lt_self (by
        rcases Nat.eq_zero_or_pos n with h | h
        · subst h; simp at h0
        · exact h) (by omega)
      obtain ⟨h1, h2, _⟩ := ih (n / b) hlt
      rw [toDigits_step b hb n h0]
      refine ⟨?_, ?_, by simp⟩
      · rw [loopValue_append, h1, hdc]
        simp only [Option.getD_some]
        rw [Nat.mul_comm]
        exact Nat.div_add_mod n b
      · intro c hc
        rcases List.mem_append.1 hc with hc | hc
        · exact h2 c hc
        · simp only [List.mem_singleton] at hc
          subst hc
          exact ⟨_, hdc, hmod⟩

theorem toDigits_length_two (b : Nat) (hb : 2 ≤ b) (hb16 : b ≤ 16) (n : Nat) (hn : b ≤ n) :
    2 ≤ (Nat.toDigits b n).length := by
  have h0 : n / b ≠ 0 := by
    have : 0 < n / b := Nat.div_pos hn (by omega)
    omega
  rw [toDigits_step b hb n h0]
  have := (toDigits_spec b hb hb16 (n / b)).2.2
  have hpos : 0 < (Nat.toDigits b (n / b)).length := List.length_pos.2 this
  simp
  omega

theorem ParseInt_digits (b : Nat) (hb : 2 ≤ b) (hb36 : b ≤ 36) (l : List Char) (hne : l ≠ [])
    (hd : ∀ c ∈ l, ∃ k, digitVal c = some k ∧ k < b) (hv : loopValue b l 0 < 2 ^ 63) :
    ParseInt l b = (((loopValue b l 0 : Nat) : Int), none) := by
  cases l with
  | nil => exact absurd rfl hne
  | cons c rest =>
    obtain ⟨k, hk, _⟩ := hd c (List.mem_cons_self _ _)
    have hplus : c ≠ '+' := by rintro rfl; simp [digitVal, lower] at hk
    have hminus : c ≠ '-' := by rintro rfl; simp [digitVal, lower] at hk
    have hmax : maxUint64 = 2 ^ 64 - 1 := rfl
    have hu : ParseUint (c :: rest) b = (loopValue b (c :: rest) 0, none) := by
      unfold ParseUint
      rw [if_neg (by simp), if_pos ⟨hb, hb36⟩]
      exact ParseUintLoop_ok b hb _ 0 hd (by omega)
    unfold ParseInt
    simp only [hplus, hminus, or_self, if_false, hu, decide_False]
    simp
    omega

/-! ### Parsing and accepting a reply token -/

theorem ParseUnverified_ok (L : Lib) (out : String) (tok : Token) (parts : List String)
    (h : ParseUnverified L out = (some tok, parts, none)) :
    ∃ p0 p1 p2 m hdr c, parts = [p0, p1, p2] ∧
      tok = ⟨out, some m, hdr, some c, "", false⟩ := by
  unfold ParseUnverified at h
  dsimp only at h
  split at h
  · rename_i q0 q1 q2 hsplit
    split at h
    · simp at h
    · split at h
      · simp at h
      · split at h
        · simp at h
        · split at h
          · split at h
            · simp at h
            · simp only [Prod.mk.injEq, Option.some.injEq, and_true] at h
              obtain ⟨h1, h2⟩ := h
              subst h1
              exact ⟨_, _, _, _, _, _, by rw [← h2, hsplit], rfl⟩
          · simp at h
  · simp at h

theorem ParseUnverified_valid (L : Lib) (out : String) (tok : Token) (parts : List String)
    (e : Option (List ErrFlag))
    (h : ParseUnverified L out = (some tok, parts, e)) : tok.Valid = false := by
  unfold ParseUnverified at h
  dsimp only at h
  split at h
  · split at h
    · simp only [Prod.mk.injEq, Option.some.injEq] at h; rw [← h.1]
    · split at h
      · simp only [Prod.mk.injEq, Option.some.injEq] at h; rw [← h.1]
      · split at h
        · simp only [Prod.mk.injEq, Option.some.injEq] at h; rw [← h.1]
        · split at h
          · split at h
            · simp only [Prod.mk.injEq, Option.some.injEq] at h; rw [← h.1]
            · simp only [Prod.mk.injEq, Option.some.injEq] at h; rw [← h.1]
          · simp only [Prod.mk.injEq, Option.some.injEq] at h; rw [← h.1]
  · simp at h

/-- Parse on an accepted token. -/
theorem Parse_of_accepted (L : Lib) (now : Int) (apiKey out : String) (h : HashAlg)
    (claims : List (String × GoValue)) (hacc : Accepted L now apiKey out h claims) :
    ∃ tok, Parse L now out (keyFunc apiKey) = (some tok, none) ∧ tok.Valid = true ∧
      tok.Claims = some claims := by
  obtain ⟨token, p0, p1, p2, hpu, hm, hc, hv, hcl⟩ := hacc
  unfold Parse
  rw [hpu]
  simp only [keyFunc, hm, hc, hv, hcl, if_true, List.append_nil]
  exact ⟨_, rfl, rfl, rfl⟩

/-- A token that `Parse` marks valid is an accepted token. -/
theorem accepted_of_Parse (L : Lib) (now : Int) (apiKey out : String) (tok : Token)
    (e : Option (List ErrFlag)) (hp : Parse L now out (keyFunc apiKey) = (some tok, e))
    (hvalid : tok.Valid = true) :
    ∃ h claims, Accepted L now apiKey out h claims ∧ tok.Claims = some claims := by
  unfold Parse at hp
  split at hp
  · rename_i token p0 p1 p2 hpu
    obtain ⟨q0, q1, q2, m, hdr, c, hparts, htok⟩ := ParseUnverified_ok L out token _ hpu
    subst htok
    cases m with
    | other a =>
      simp [keyFunc] at hp
      rw [← hp.1] at hvalid
      simp at hvalid
    | HMAC h =>
      simp only [keyFunc] at hp
      by_cases hv : Verify L (SigningMethod.HMAC h) (p0 ++ "." ++ p1) p2 (utf8 apiKey) = true
      · by_cases hcl : MapClaimsValid c now = []
        · simp only [hv, hcl, if_true, List.append_nil, Prod.mk.injEq, Option.some.injEq] at hp
          refine ⟨h, c, ⟨_, p0, p1, p2, hpu, rfl, rfl, hv, hcl⟩, ?_⟩
          rw [← hp.1]
        · simp only [hv, if_true, List.append_nil, hcl, if_false, Prod.mk.injEq,
            Option.some.injEq] at hp
          rw [← hp.1] at hvalid
          simp at hvalid
      · simp only [hv, if_false] at hp
        simp at hp
        rw [← hp.1] at hvalid
        simp at hvalid
  · rename_i token parts err hne
    simp only [Prod.mk.injEq] at hp
    rw [hp.1] at hne
    have := ParseUnverified_valid L out tok _ _ hne
    rw [this] at hvalid
    exact absurd hvalid (by simp)

theorem handleResponse_accepted (W : World) (apiKey out : String) (tr : List Event)
    (h : HashAlg) (claims : List (String × GoValue))
    (hacc : Accepted W.lib (W.now tr) apiKey out h claims) :
    handleResponse W apiKey ⟨out, true⟩ tr =
      (readResult claims, tr ++ [Event.parse out, Event.readClaims]) := by
  obtain ⟨tok, hp, hv, hc⟩ := Parse_of_accepted W.lib (W.now tr) apiKey out h claims hacc
  unfold handleResponse
  simp [hp, hc, hv]

theorem handleResponse_rejected (W : World) (apiKey out : String) (tr : List Event)
    (hrej : ¬ ∃ h claims, Accepted W.lib (W.now tr) apiKey out h claims) :
    (handleResponse W apiKey ⟨out, true⟩ tr).1.failed = true ∧
      (handleResponse W apiKey ⟨out, true⟩ tr).2 = tr ++ [Event.parse out] := by
  unfold handleResponse
  simp only [if_true]
  rcases hp : Parse W.lib (W.now tr) out (keyFunc apiKey) with ⟨_ | tok, e⟩
  · simp [Outcome.failed]
  · simp only
    cases hc : tok.Claims with
    | none => simp [Outcome.failed]
    | some c =>
      simp only
      by_cases hv : tok.Valid = true
      · obtain ⟨h, cl, ha, _⟩ := accepted_of_Parse _ _ _ _ _ _ hp hv
        exact absurd ⟨h, cl, ha⟩ hrej
      · simp [hv, Outcome.failed]

/-! ### C1: a reply with `Status = false` -/

/-- The events that `sendRequest` adds when it returns a reply. -/
theorem sendRequest_ret (W : World) (apiKey did network chain method : String)
    (params : GoValue) (tr tr1 : List Event) (r : Response)
    (h : sendRequest W apiKey did network chain method params tr = (Outcome.ret r, tr1)) :
    ∃ tok, tr1 = tr ++ [Event.call apiKey did network chain method params,
      Event.signed tok, Event.invoke ⟨tok, did⟩] := by
  unfold sendRequest at h
  dsimp only at h
  split at h
  · simp at h
  · rename_i tok _
    split at h
    · simp at h
    · simp only [Prod.mk.injEq, Outcome.ret.injEq] at h
      exact ⟨tok, by rw [← h.2]; simp⟩

theorem RpcMethod_of_send (W : World) (apiKey did network chain method : String)
    (params : GoValue) (tr tr1 : List Event) (r : Response)
    (h : sendRequest W apiKey did network chain method params tr = (Outcome.ret r, tr1)) :
    RpcMethod W apiKey did network chain method params tr = handleResponse W apiKey r tr1 := by
  unfold RpcMethod
  rw [h]
  rfl

/-- C1. When the reply has `Status = false`, `RpcMethod` returns nil and does
not fail; the reply output is neither parsed nor verified (no `parse` and no
`readClaims` event follows the request), and the result is the same for every
output string. -/
theorem C1_status_false_returns_nil (W : World) (apiKey did network chain method : String)
    (params : GoValue) (tr tr1 : List Event) (output : String)
    (hsend : sendRequest W apiKey did network chain method params tr =
      (Outcome.ret ⟨output, false⟩, tr1)) :
    RpcMethod W apiKey did network chain method params tr = (Outcome.ret GoValue.nil, tr1) ∧
    (∃ tok, tr1 = tr ++ [Event.call apiKey did network chain method params,
      Event.signed tok, Event.invoke ⟨tok, did⟩]) ∧
    (∀ output2,
      handleResponse W apiKey ⟨output2, false⟩ tr1 = (Outcome.ret GoValue.nil, tr1)) := by
  refine ⟨?_, sendRequest_ret W _ _ _ _ _ _ _ _ _ hsend, ?_⟩
  · rw [RpcMethod_of_send W _ _ _ _ _ _ _ _ _ hsend]
    simp [handleResponse]
  · intro o
    simp [handleResponse]

/-- C1 at a concrete run: the endpoint answers `eth_blockNumber` with
`Status = false` and some output. -/
theorem C1_status_false_returns_nil_witness :
    sendRequest (scriptedWorld [⟨"not a token", false⟩]) "test-api-key" "did:elastos:iTest"
        "mainnet" "eth" "eth_blockNumber" (GoValue.map []) [] =
      (Outcome.ret ⟨"not a token", false⟩,
        (sendRequest (scriptedWorld [⟨"not a token", false⟩]) "test-api-key"
          "did:elastos:iTest" "mainnet" "eth" "eth_blockNumber" (GoValue.map []) []).2) ∧
    RpcMethod (scriptedWorld [⟨"not a token", false⟩]) "test-api-key" "did:elastos:iTest"
        "mainnet" "eth" "eth_blockNumber" (GoValue.map []) [] =
      (Outcome.ret GoValue.nil,
        (sendRequest (scriptedWorld [⟨"not a token", false⟩]) "test-api-key"
          "did:elastos:iTest" "mainnet" "eth" "eth_blockNumber" (GoValue.map []) []).2) :=
  ⟨by rfl, (C1_status_false_returns_nil _ _ _ _ _ _ _ _ _ _ (by rfl)).1⟩

/-! ### C2: the claims are read only from a verified token -/

theorem accepted_of_acceptedClaims (L : Lib) (now : Int) (apiKey out : String) (h : HashAlg)
    (claims : List (String × GoValue))
    (hc : acceptedClaims L now apiKey out = some (h, claims)) :
    Accepted L now apiKey out h claims := by
  unfold acceptedClaims at hc
  split at hc
  · rename_i token p0 p1 p2 hpu
    split at hc
    · rename_i h2 c2 hm hcl
      split at hc
      · rename_i hcond
        simp only [Option.some.injEq, Prod.mk.injEq] at hc
        obtain ⟨rfl, rfl⟩ := hc
        exact ⟨token, p0, p1, p2, hpu, hm, hcl, hcond.1, hcond.2⟩
      · simp at hc
    · simp at hc
  · simp at hc

theorem mapIndex_of_lookup (m : List (String × GoValue)) (k : String) (v : GoValue)
    (h : m.lookup k = some v) : mapIndex m k = v := by
  simp [mapIndex, h]

theorem expired_not_valid (c : List (String × GoValue)) (now : Int) (e : ℚ)
    (hexp : mapIndex c "exp" = GoValue.float64 e) (h0 : truncInt64 e ≠ 0)
    (hpast : truncInt64 e < now) : MapClaimsValid c now ≠ [] := by
  have : VerifyExpiresAt c now = false := by
    simp only [VerifyExpiresAt, hexp, verifyExp, h0, if_false]
    simp
    omega
  simp [MapClaimsValid, this]

/-- C2 (amended). For a reply with `Status = true`: `RpcMethod` returns a
value, or reads the claims of the reply token, only if the token is accepted
under the key `[]byte(apiKey)` with an HMAC method; a token that is not
accepted makes the call fail with nothing read after the parse.  In
particular the call fails, with the claims never read, when the signature
does not verify, when the signing method is not of the HMAC family, and when
the `exp` claim is a number whose integer part is non-zero and earlier than
the verification time. -/
theorem C2_reads_only_verified_token (W : World) (apiKey did network chain method : String)
    (params : GoValue) (tr tr1 : List Event) (output : String)
    (hsend : sendRequest W apiKey did network chain method params tr =
      (Outcome.ret ⟨output, true⟩, tr1)) :
    (((∃ v, (RpcMethod W apiKey did network chain method params tr).1 = Outcome.ret v) ∨
        Event.readClaims ∈
          (RpcMethod W apiKey did network chain method params tr).2.drop tr1.length) →
      ∃ h claims, Accepted W.lib (W.now tr1) apiKey output h claims) ∧
    ((¬ ∃ h claims, Accepted W.lib (W.now tr1) apiKey output h claims) →
      (RpcMethod W apiKey did network chain method params tr).1.failed = true ∧
      (RpcMethod W apiKey did network chain method params tr).2 =
        tr1 ++ [Event.parse output]) ∧
    (∀ token p0 p1 p2, ParseUnverified W.lib output = (some token, [p0, p1, p2], none) →
      ((∃ m, token.Method = some m ∧
          Verify W.lib m (p0 ++ "." ++ p1) p2 (utf8 apiKey) = false) ∨
        (∃ alg, token.Method = some (SigningMethod.other alg)) ∨
        (∃ c e, token.Claims = some c ∧ mapIndex c "exp" = GoValue.float64 e ∧
          truncInt64 e ≠ 0 ∧ truncInt64 e < W.now tr1)) →
      (RpcMethod W apiKey did network chain method params tr).1.failed = true ∧
      (RpcMethod W apiKey did network chain method params tr).2 =
        tr1 ++ [Event.parse output]) := by
  rw [RpcMethod_of_send W _ _ _ _ _ _ _ _ _ hsend]
  refine ⟨?_, handleResponse_rejected W apiKey output tr1, ?_⟩
  · intro hret
    by_contra hrej
    obtain ⟨hf, htr⟩ := handleResponse_rejected W apiKey output tr1 hrej
    rcases hret with ⟨v, hv⟩ | hmem
    · rw [hv] at hf
      simp [Outcome.failed] at hf
    · rw [htr] at hmem
      simp at hmem
  · intro token p0 p1 p2 hpu hbad
    apply handleResponse_rejected
    rintro ⟨h, claims, tok2, q0, q1, q2, hpu2, hm, hc, hv, hcl⟩
    rw [hpu] at hpu2
    simp only [Prod.mk.injEq, Option.some.injEq, List.cons.injEq, and_true] at hpu2
    obtain ⟨rfl, rfl, rfl, rfl⟩ := hpu2
    rcases hbad with ⟨m, hm2, hv2⟩ | ⟨alg, hm2⟩ | ⟨c, e, hc2, hexp, h0, hpast⟩
    · rw [hm] at hm2
      simp only [Option.some.injEq] at hm2
      subst hm2
      rw [hv] at hv2
      exact absurd hv2 (by simp)
    · rw [hm] at hm2
      simp at hm2
    · rw [hc] at hc2
      simp only [Option.some.injEq] at hc2
      subst hc2
      exact expired_not_valid _ _ e hexp h0 hpast hcl

/-- C2 at concrete runs under the API key `test-api-key` with the clock at
1700000000.  A correctly signed token whose `exp` is 1600000000, a token signed
under another key, and an unsigned token with method `none` each make the call
fail; a token signed with HS512 is returned from, and is an accepted token. -/
theorem C2_reads_only_verified_token_witness :
    (truncInt64 1600000000 < (1700000000 : Int) ∧
      (RpcMethod (scriptedWorld [⟨tokenExpired, true⟩]) "test-api-key" "did:elastos:iTest"
        "mainnet" "eth" "eth_blockNumber" (GoValue.map []) []).1.failed = true) ∧
    (Verify concreteLib (SigningMethod.HMAC HashAlg.SHA256)
        ((stringsSplitDot tokenOtherKey).getD 0 "" ++ "." ++
          (stringsSplitDot tokenOtherKey).getD 1 "")
        ((stringsSplitDot tokenOtherKey).getD 2 "") (utf8 "test-api-key") = false ∧
      (RpcMethod (scriptedWorld [⟨tokenOtherKey, true⟩]) "test-api-key" "did:elastos:iTest"
        "mainnet" "eth" "eth_blockNumber" (GoValue.map []) []).1.failed = true) ∧
    ((ParseUnverified concreteLib tokenAlgNone).1.bind Token.Method =
        some (SigningMethod.other "none") ∧
      (RpcMethod (scriptedWorld [⟨tokenAlgNone, true⟩]) "test-api-key" "did:elastos:iTest"
        "mainnet" "eth" "eth_blockNumber" (GoValue.map []) []).1.failed = true) ∧
    ((RpcMethod (scriptedWorld [⟨tokenHS512, true⟩]) "test-api-key" "did:elastos:iTest"
        "mainnet" "eth" "eth_blockNumber" (GoValue.map []) []).1 =
        Outcome.ret (GoValue.str "0x1a") ∧
      ∃ h claims, Accepted concreteLib 1700000000 "test-api-key" tokenHS512 h claims) :=
  ⟨⟨by decide,
    ((C2_reads_only_verified_token (scriptedWorld [⟨tokenExpired, true⟩]) "test-api-key"
      "did:elastos:iTest" "mainnet" "eth" "eth_blockNumber" (GoValue.map []) [] _ tokenExpired
      (by rfl)).2.2
      ⟨tokenExpired, some (SigningMethod.HMAC HashAlg.SHA256),
        [("alg", GoValue.str "HS256"), ("typ", GoValue.str "JWT")],
        some [("exp", GoValue.float64 1600000000),
          ("jwt_info", GoValue.map [("result", GoValue.str "0x1a")])], "", false⟩
      ((stringsSplitDot tokenExpired).getD 0 "") ((stringsSplitDot tokenExpired).getD 1 "")
      ((stringsSplitDot tokenExpired).getD 2 "") (by rfl)
      (Or.inr (Or.inr ⟨_, 1600000000, rfl, by rfl, by decide, by decide⟩))).1⟩,
   ⟨by decide,
    ((C2_reads_only_verified_token (scriptedWorld [⟨tokenOtherKey, true⟩]) "test-api-key"
      "did:elastos:iTest" "mainnet" "eth" "eth_blockNumber" (GoValue.map []) [] _ tokenOtherKey
      (by rfl)).2.2
      ⟨tokenOtherKey, some (SigningMethod.HMAC HashAlg.SHA256),
        [("alg", GoValue.str "HS256"), ("typ", GoValue.str "JWT")],
        some [("exp", GoValue.float64 4102444800),
          ("jwt_info", GoValue.map [("result", GoValue.str "0x1a")])], "", false⟩
      ((stringsSplitDot tokenOtherKey).getD 0 "") ((stringsSplitDot tokenOtherKey).getD 1 "")
      ((stringsSplitDot tokenOtherKey).getD 2 "") (by rfl)
      (Or.inl ⟨_, rfl, by decide⟩)).1⟩,
   ⟨by rfl,
    ((C2_reads_only_verified_token (scriptedWorld [⟨tokenAlgNone, true⟩]) "test-api-key"
      "did:elastos:iTest" "mainnet" "eth" "eth_blockNumber" (GoValue.map []) [] _ tokenAlgNone
      (by rfl)).2.2
      ⟨tokenAlgNone, some (SigningMethod.other "none"),
        [("alg", GoValue.str "none"), ("typ", GoValue.str "JWT")],
        some [("exp", GoValue.float64 4102444800),
          ("jwt_info", GoValue.map [("result", GoValue.str "0x1a")])], "", false⟩
      ((stringsSplitDot tokenAlgNone).getD 0 "") ((stringsSplitDot tokenAlgNone).getD 1 "")
      ((stringsSplitDot tokenAlgNone).getD 2 "") (by rfl)
      (Or.inr (Or.inl ⟨_, rfl⟩))).1⟩,
   ⟨by rfl,
    (C2_reads_only_verified_token (scriptedWorld [⟨tokenHS512, true⟩]) "test-api-key"
      "did:elastos:iTest" "mainnet" "eth" "eth_blockNumber" (GoValue.map []) [] _ tokenHS512
      (by rfl)).1 (Or.inl ⟨_, by rfl⟩)⟩⟩

/-- C2 as stated fails: the reply token below carries `exp = 0`, a timestamp
long past at the verification time 1700000000, and is correctly signed; the
library takes a zero `exp` as not set, the token is accepted and `RpcMethod`
returns the result. -/
theorem C2_counterexample :
    (ParseUnverified concreteLib tokenExpZero).1.bind Token.Claims =
      some [("exp", GoValue.float64 0),
        ("jwt_info", GoValue.map [("result", GoValue.str "0x1a")])] ∧
    (0 : Int) < (scriptedWorld [⟨tokenExpZero, true⟩]).now [] ∧
    (RpcMethod (scriptedWorld [⟨tokenExpZero, true⟩]) "test-api-key" "did:elastos:iTest"
        "mainnet" "eth" "eth_blockNumber" (GoValue.map []) []).1 =
      Outcome.ret (GoValue.str "0x1a") :=
  ⟨by rfl, by decide, by rfl⟩

/-! ### C3 and C5: the result of a validly signed token -/

/-- What `signedClaims` computes is a validly signed token. -/
theorem signed_of_signedClaims (L : Lib) (apiKey out : String) (h : HashAlg)
    (claims : List (String × GoValue))
    (hc : signedClaims L apiKey out = some (h, claims)) :
    Signed L apiKey out h claims := by
  unfold signedClaims at hc
  split at hc
  · rename_i token p0 p1 p2 hpu
    split at hc
    · rename_i h2 c2 hm hcl
      split at hc
      · rename_i hcond
        simp only [Option.some.injEq, Prod.mk.injEq] at hc
        obtain ⟨rfl, rfl⟩ := hc
        exact ⟨token, p0, p1, p2, hpu, hm, hcl, hcond⟩
      · simp at hc
    · simp at hc
  · simp at hc

/-- A validly signed token whose claims pass the three time checks is accepted. -/
theorem accepted_of_signed (L : Lib) (now : Int) (apiKey out : String) (h : HashAlg)
    (claims : List (String × GoValue)) (hs : Signed L apiKey out h claims)
    (hexp : VerifyExpiresAt claims now = true) (hiat : VerifyIssuedAt claims now = true)
    (hnbf : VerifyNotBefore claims now = true) : Accepted L now apiKey out h claims := by
  obtain ⟨token, p0, p1, p2, hpu, hm, hc, hv⟩ := hs
  exact ⟨token, p0, p1, p2, hpu, hm, hc, hv, by simp [MapClaimsValid, hexp, hiat, hnbf]⟩

/-- A validly signed token whose claims fail one of the time checks is not
accepted. -/
theorem not_accepted_of_signed (L : Lib) (now : Int) (apiKey out : String) (h : HashAlg)
    (claims : List (String × GoValue)) (hs : Signed L apiKey out h claims)
    (hbad : VerifyIssuedAt claims now = false ∨ VerifyNotBefore claims now = false) :
    ¬ ∃ h2 claims2, Accepted L now apiKey out h2 claims2 := by
  rintro ⟨h2, c2, tok2, q0, q1, q2, hpu2, _, hc2, _, hvalid⟩
  obtain ⟨token, p0, p1, p2, hpu, _, hc, _⟩ := hs
  rw [hpu] at hpu2
  simp only [Prod.mk.injEq, Option.some.injEq, and_true] at hpu2
  rw [← hpu2.1, hc] at hc2
  simp only [Option.some.injEq] at hc2
  subst hc2
  unfold MapClaimsValid at hvalid
  rcases hbad with hb | hb
  · simp [hb] at hvalid
  · simp [hb] at hvalid

/-- C3 (amended). For a reply with `Status = true` whose token is validly
signed with the API key under an HMAC method, is unexpired as the verifier
checks it, and passes the two other time checks of the verifier (its `iat` and
`nbf` claims, when set, are not later than the verification time), and whose
claims carry a `jwt_info`
object with the field `result = v`, where `v` is not JSON `null`, `RpcMethod`
returns exactly `v`. -/
theorem C3_returns_embedded_result (W : World) (apiKey did network chain method : String)
    (params : GoValue) (tr tr1 : List Event) (output : String) (h : HashAlg)
    (claims strMap : List (String × GoValue)) (v : GoValue)
    (hsend : sendRequest W apiKey did network chain method params tr =
      (Outcome.ret ⟨output, true⟩, tr1))
    (hsigned : Signed W.lib apiKey output h claims)
    (hexp : VerifyExpiresAt claims (W.now tr1) = true)
    (hiat : VerifyIssuedAt claims (W.now tr1) = true)
    (hnbf : VerifyNotBefore claims (W.now tr1) = true)
    (hinfo : claims.lookup "jwt_info" = some (GoValue.map strMap))
    (hres : strMap.lookup "result" = some v) (hv : v ≠ GoValue.nil) :
    RpcMethod W apiKey did network chain method params tr =
      (Outcome.ret v, tr1 ++ [Event.parse output, Event.readClaims]) := by
  rw [RpcMethod_of_send W _ _ _ _ _ _ _ _ _ hsend,
    handleResponse_accepted W apiKey output tr1 h claims
      (accepted_of_signed _ _ _ _ _ _ hsigned hexp hiat hnbf)]
  unfold readResult
  rw [mapIndex_of_lookup _ _ _ hinfo]
  simp only [mapIndex_of_lookup _ _ _ hres]

/-- C3 at a concrete run: the reply carries `result = "0x1a"`. -/
theorem C3_returns_embedded_result_witness :
    sendRequest (scriptedWorld [⟨tokenHeight1a, true⟩]) "test-api-key" "did:elastos:iTest"
        "mainnet" "eth" "eth_blockNumber" (GoValue.map []) [] =
      (Outcome.ret ⟨tokenHeight1a, true⟩,
        (sendRequest (scriptedWorld [⟨tokenHeight1a, true⟩]) "test-api-key"
          "did:elastos:iTest" "mainnet" "eth" "eth_blockNumber" (GoValue.map []) []).2) ∧
    signedClaims concreteLib "test-api-key" tokenHeight1a =
      some (HashAlg.SHA256, [("exp", GoValue.float64 4102444800),
        ("jwt_info", GoValue.map [("result", GoValue.str "0x1a")])]) ∧
    (RpcMethod (scriptedWorld [⟨tokenHeight1a, true⟩]) "test-api-key" "did:elastos:iTest"
        "mainnet" "eth" "eth_blockNumber" (GoValue.map []) []).1 =
      Outcome.ret (GoValue.str "0x1a") :=
  ⟨by rfl, by rfl,
    congrArg Prod.fst (C3_returns_embedded_result (scriptedWorld [⟨tokenHeight1a, true⟩])
      "test-api-key" "did:elastos:iTest" "mainnet" "eth" "eth_blockNumber" (GoValue.map []) []
      _ tokenHeight1a HashAlg.SHA256 _ [("result", GoValue.str "0x1a")] (GoValue.str "0x1a")
      (by rfl) (signed_of_signedClaims _ _ _ _ _ (by rfl)) (by rfl) (by rfl) (by rfl)
      (by rfl) (by rfl) (by simp))⟩

/-- C3 as stated fails in three ways.  For `v = null`: the first reply token is
accepted under the API key and its `jwt_info` object contains the field
`result = null`, yet `RpcMethod` does not return `null`; the assertion
`.(interface{})` at line 236 panics.  For a token that is not yet valid: the
second reply token is validly signed with the API key and unexpired (`exp` in
2100) and carries `result = "0x1a"`, but its `nbf` claim is later than the
verification time; `jwt.Parse` leaves `Valid` false and line 238 ends the
program.  For a token issued in the future: the third reply token is the same
with an `iat` claim later than the verification time. -/
theorem C3_counterexample :
    (acceptedClaims concreteLib 1700000000 "test-api-key" tokenResultNull =
      some (HashAlg.SHA256, [("exp", GoValue.float64 4102444800),
        ("jwt_info", GoValue.map [("result", GoValue.nil)])]) ∧
    (RpcMethod (scriptedWorld [⟨tokenResultNull, true⟩]) "test-api-key" "did:elastos:iTest"
        "mainnet" "eth" "eth_blockNumber" (GoValue.map []) []).1 =
      Outcome.panic "interface conversion: interface is nil") ∧
    (signedClaims concreteLib "test-api-key" tokenNotYetValid =
      some (HashAlg.SHA256, [("exp", GoValue.float64 4102444800),
        ("jwt_info", GoValue.map [("result", GoValue.str "0x1a")]),
        ("nbf", GoValue.float64 4000000000)]) ∧
    VerifyExpiresAt [("exp", GoValue.float64 4102444800),
        ("jwt_info", GoValue.map [("result", GoValue.str "0x1a")]),
        ("nbf", GoValue.float64 4000000000)] 1700000000 = true ∧
    (RpcMethod (scriptedWorld [⟨tokenNotYetValid, true⟩]) "test-api-key" "did:elastos:iTest"
        "mainnet" "eth" "eth_blockNumber" (GoValue.map []) []).1 =
      Outcome.fatal "Failed to execute 'RpcMethod' method") ∧
    (signedClaims concreteLib "test-api-key" tokenIssuedLater =
      some (HashAlg.SHA256, [("exp", GoValue.float64 4102444800),
        ("iat", GoValue.float64 4000000000),
        ("jwt_info", GoValue.map [("result", GoValue.str "0x1a")])]) ∧
    VerifyExpiresAt [("exp", GoValue.float64 4102444800),
        ("iat", GoValue.float64 4000000000),
        ("jwt_info", GoValue.map [("result", GoValue.str "0x1a")])] 1700000000 = true ∧
    (RpcMethod (scriptedWorld [⟨tokenIssuedLater, true⟩]) "test-api-key" "did:elastos:iTest"
        "mainnet" "eth" "eth_blockNumber" (GoValue.map []) []).1 =
      Outcome.fatal "Failed to execute 'RpcMethod' method") :=
  ⟨⟨by rfl, by rfl⟩, ⟨by rfl, by rfl, by rfl⟩, ⟨by rfl, by rfl, by rfl⟩⟩

/-- C5. For a reply with `Status = true` whose token is validly signed with
the API key and unexpired, but whose claims have no `jwt_info` object, or whose
`jwt_info` object has no `result` field, `RpcMethod` fails and returns no
value; in particular it does not return nil.  When the token also passes the
two other time checks of the verifier (`iat`, `nbf`), the failure is the panic
of a type assertion of lines 235-236, after the claims are read; when it does
not, the failure is that of line 238 and the claims are not read. -/
theorem C5_missing_fields_fail (W : World) (apiKey did network chain method : String)
    (params : GoValue) (tr tr1 : List Event) (output : String) (h : HashAlg)
    (claims : List (String × GoValue))
    (hsend : sendRequest W apiKey did network chain method params tr =
      (Outcome.ret ⟨output, true⟩, tr1))
    (hsigned : Signed W.lib apiKey output h claims)
    (hexp : VerifyExpiresAt claims (W.now tr1) = true)
    (hshape : (∀ m, mapIndex claims "jwt_info" ≠ GoValue.map m) ∨
      (∃ m, mapIndex claims "jwt_info" = GoValue.map m ∧ m.lookup "result" = none)) :
    (RpcMethod W apiKey did network chain method params tr).1.failed = true ∧
    (∀ v, (RpcMethod W apiKey did network chain method params tr).1 ≠ Outcome.ret v) ∧
    (RpcMethod W apiKey did network chain method params tr).1 ≠ Outcome.ret GoValue.nil ∧
    (VerifyIssuedAt claims (W.now tr1) = true → VerifyNotBefore claims (W.now tr1) = true →
      ∃ msg, RpcMethod W apiKey did network chain method params tr =
        (Outcome.panic msg, tr1 ++ [Event.parse output, Event.readClaims])) ∧
    (VerifyIssuedAt claims (W.now tr1) = false ∨ VerifyNotBefore claims (W.now tr1) = false →
      (RpcMethod W apiKey did network chain method params tr).2 =
        tr1 ++ [Event.parse output]) := by
  have hpanic : VerifyIssuedAt claims (W.now tr1) = true →
      VerifyNotBefore claims (W.now tr1) = true →
      ∃ msg, RpcMethod W apiKey did network chain method params tr =
        (Outcome.panic msg, tr1 ++ [Event.parse output, Event.readClaims]) := by
    intro hiat hnbf
    rw [RpcMethod_of_send W _ _ _ _ _ _ _ _ _ hsend,
      handleResponse_accepted W apiKey output tr1 h claims
        (accepted_of_signed _ _ _ _ _ _ hsigned hexp hiat hnbf)]
    unfold readResult
    rcases hshape with hno | ⟨m, hm, hres⟩
    · split
      · rename_i m hm
        exact absurd hm (hno m)
      · exact ⟨_, rfl⟩
    · rw [hm]
      simp only [mapIndex, hres]
      exact ⟨_, rfl⟩
  have hrej : VerifyIssuedAt claims (W.now tr1) = false ∨
      VerifyNotBefore claims (W.now tr1) = false →
      (RpcMethod W apiKey did network chain method params tr).1.failed = true ∧
      (RpcMethod W apiKey did network chain method params tr).2 =
        tr1 ++ [Event.parse output] := by
    intro hbad
    rw [RpcMethod_of_send W _ _ _ _ _ _ _ _ _ hsend]
    exact handleResponse_rejected W apiKey output tr1
      (not_accepted_of_signed _ _ _ _ _ _ hsigned hbad)
  have hfailed : (RpcMethod W apiKey did network chain method params tr).1.failed = true := by
    by_cases hiat : VerifyIssuedAt claims (W.now tr1) = true
    · by_cases hnbf : VerifyNotBefore claims (W.now tr1) = true
      · obtain ⟨msg, hmsg⟩ := hpanic hiat hnbf
        rw [hmsg]
        rfl
      · exact (hrej (Or.inr (by simpa using hnbf))).1
    · exact (hrej (Or.inl (by simpa using hiat))).1
  refine ⟨hfailed, ?_, ?_, hpanic, fun hbad => (hrej hbad).2⟩
  · intro v hv
    rw [hv] at hfailed
    simp [Outcome.failed] at hfailed
  · intro hv
    rw [hv] at hfailed
    simp [Outcome.failed] at hfailed

/-- C5 at three concrete runs: the accepted reply token has no `jwt_info`; it
has a `jwt_info` object without a `result` field; and the reply token is
validly signed and unexpired, has no `jwt_info`, and is not yet valid. -/
theorem C5_missing_fields_fail_witness :
    (signedClaims concreteLib "test-api-key" tokenNoJwtInfo =
        some (HashAlg.SHA256, [("exp", GoValue.float64 4102444800)]) ∧
      ∃ msg, (RpcMethod (scriptedWorld [⟨tokenNoJwtInfo, true⟩]) "test-api-key"
        "did:elastos:iTest" "mainnet" "eth" "eth_blockNumber" (GoValue.map []) []).1 =
        Outcome.panic msg) ∧
    (signedClaims concreteLib "test-api-key" tokenNoResult =
        some (HashAlg.SHA256, [("exp", GoValue.float64 4102444800),
          ("jwt_info", GoValue.map [])]) ∧
      ∃ msg, (RpcMethod (scriptedWorld [⟨tokenNoResult, true⟩]) "test-api-key"
        "did:elastos:iTest" "mainnet" "eth" "eth_blockNumber" (GoValue.map []) []).1 =
        Outcome.panic msg) ∧
    (signedClaims concreteLib "test-api-key" tokenNotYetValidNoInfo =
        some (HashAlg.SHA256, [("exp", GoValue.float64 4102444800),
          ("nbf", GoValue.float64 4000000000)]) ∧
      (RpcMethod (scriptedWorld [⟨tokenNotYetValidNoInfo, true⟩]) "test-api-key"
        "did:elastos:iTest" "mainnet" "eth" "eth_blockNumber" (GoValue.map []) []).1.failed =
        true ∧
      (RpcMethod (scriptedWorld [⟨tokenNotYetValidNoInfo, true⟩]) "test-api-key"
        "did:elastos:iTest" "mainnet" "eth" "eth_blockNumber" (GoValue.map []) []).1 =
        Outcome.fatal "Failed to execute 'RpcMethod' method") :=
  ⟨⟨by rfl,
    ((C5_missing_fields_fail (scriptedWorld [⟨tokenNoJwtInfo, true⟩])
      "test-api-key" "did:elastos:iTest" "mainnet" "eth" "eth_blockNumber" (GoValue.map []) []
      _ tokenNoJwtInfo HashAlg.SHA256 _
      (by rfl) (signed_of_signedClaims _ _ _ _ _ (by rfl)) (by rfl)
      (Or.inl (fun m hm => GoValue.noConfusion
        ((show GoValue.nil = mapIndex [("exp", GoValue.float64 4102444800)] "jwt_info" by
          rfl).trans hm)))).2.2.2.1 (by rfl) (by rfl)).imp
      (fun _ hmsg => congrArg Prod.fst hmsg)⟩,
   ⟨by rfl,
    ((C5_missing_fields_fail (scriptedWorld [⟨tokenNoResult, true⟩])
      "test-api-key" "did:elastos:iTest" "mainnet" "eth" "eth_blockNumber" (GoValue.map []) []
      _ tokenNoResult HashAlg.SHA256 _
      (by rfl) (signed_of_signedClaims _ _ _ _ _ (by rfl)) (by rfl)
      (Or.inr ⟨[], by rfl, by rfl⟩)).2.2.2.1 (by rfl) (by rfl)).imp
      (fun _ hmsg => congrArg Prod.fst hmsg)⟩,
   ⟨by rfl,
    (C5_missing_fields_fail (scriptedWorld [⟨tokenNotYetValidNoInfo, true⟩])
      "test-api-key" "did:elastos:iTest" "mainnet" "eth" "eth_blockNumber" (GoValue.map []) []
      _ tokenNotYetValidNoInfo HashAlg.SHA256 _
      (by rfl) (signed_of_signedClaims _ _ _ _ _ (by rfl)) (by rfl)
      (Or.inl (fun m hm => GoValue.noConfusion
        ((show GoValue.nil = mapIndex [("exp", GoValue.float64 4102444800),
          ("nbf", GoValue.float64 4000000000)] "jwt_info" by rfl).trans hm)))).1,
    by rfl⟩⟩

/-! ### The concrete base64url round trip -/

theorem b64Index_b64Char (i : Nat) (h : i < 64) : b64Index (b64Char i) = some i := by
  interval_cases i <;> decide

theorem b64Char_plain (i : Nat) (h : i < 64) :
    b64Char i ≠ '=' ∧ b64Char i ≠ '\r' ∧ b64Char i ≠ '\n' := by
  interval_cases i <;> decide

theorem b64Encode_plain (l : List Nat) (hl : ∀ x ∈ l, x < 256) :
    ∀ c ∈ b64Encode l, c ≠ '\r' ∧ c ≠ '\n' := by
  induction l using b64Encode.induct with
  | case1 a b c rest ih =>
    have ha := hl a (by simp)
    have hb := hl b (by simp)
    have hc := hl c (by simp)
    intro x hx
    simp only [b64Encode, List.mem_cons] at hx
    rcases hx with rfl | rfl | rfl | rfl | hx
    · exact (b64Char_plain _ (by omega)).2
    · exact (b64Char_plain _ (by omega)).2
    · exact (b64Char_plain _ (by omega)).2
    · exact (b64Char_plain _ (by omega)).2
    · exact ih (fun x hx => hl x (by simp [hx])) x hx
  | case2 a b =>
    have ha := hl a (by simp)
    have hb := hl b (by simp)
    intro x hx
    simp only [b64Encode, List.mem_cons, List.mem_singleton, List.not_mem_nil, or_false] at hx
    rcases hx with rfl | rfl | rfl
    · exact (b64Char_plain _ (by omega)).2
    · exact (b64Char_plain _ (by omega)).2
    · exact (b64Char_plain _ (by omega)).2
  | case3 a =>
    have ha := hl a (by simp)
    intro x hx
    simp only [b64Encode, List.mem_cons, List.mem_singleton, List.not_mem_nil, or_false] at hx
    rcases hx with rfl | rfl
    · exact (b64Char_plain _ (by omega)).2
    · exact (b64Char_plain _ (by omega)).2
  | case4 => intro x hx; simp [b64Encode] at hx

theorem b64DecodePadded_encode (l : List Nat) (hl : ∀ x ∈ l, x < 256) :
    b64DecodePadded (b64Encode l ++
      List.replicate ((4 - (b64Encode l).length % 4) % 4) '=') = some l := by
  induction l using b64Encode.induct with
  | case1 a b c rest ih =>
    have ha := hl a (by simp)
    have hb := hl b (by simp)
    have hc := hl c (by simp)
    have := ih (fun x hx => hl x (by simp [hx]))
    have hp : (4 - (b64Encode (a :: b :: c :: rest)).length % 4) % 4 =
        (4 - (b64Encode rest).length % 4) % 4 := by
      simp only [b64Encode, List.length_cons]
      omega
    rw [hp]
    simp only [b64Encode, List.cons_append, b64DecodePadded, List.append_eq]
    rw [if_neg (fun h => (b64Char_plain _ (by omega)).1 h.2)]
    simp only [b64Index_b64Char _ (show a / 4 < 64 by omega),
      b64Index_b64Char _ (show a % 4 * 16 + b / 16 < 64 by omega),
      b64Index_b64Char _ (show b % 16 * 4 + c / 64 < 64 by omega),
      b64Index_b64Char _ (show c % 64 < 64 by omega), this]
    simp only [Option.some.injEq, List.cons.injEq, and_true]
    omega
  | case2 a b =>
    have ha := hl a (by simp)
    have hb := hl b (by simp)
    simp only [b64Encode, List.length_cons, List.length_nil, List.cons_append, List.nil_append,
      List.replicate, b64DecodePadded]
    simp only [List.isEmpty_nil, true_and, if_true]
    rw [if_neg (b64Char_plain _ (by omega)).1]
    rw [b64Index_b64Char _ (by omega), b64Index_b64Char _ (by omega),
      b64Index_b64Char _ (by omega)]
    simp only [Option.some.injEq, List.cons.injEq, and_true]
    omega
  | case3 a =>
    have ha := hl a (by simp)
    simp only [b64Encode, List.length_cons, List.length_nil, List.cons_append, List.nil_append,
      List.replicate, b64DecodePadded]
    simp only [List.isEmpty_nil, true_and, if_true]
    rw [b64Index_b64Char _ (by omega), b64Index_b64Char _ (by omega)]
    simp only [Option.some.injEq, List.cons.injEq, and_true]
    omega
  | case4 => rfl

theorem concrete_decode_encode (bs : List UInt8) :
    concreteDecodeSegment (concreteEncodeSegment bs) = some bs := by
  have hl : ∀ x ∈ bs.map UInt8.toNat, x < 256 := by
    intro x hx
    obtain ⟨b, _, rfl⟩ := List.mem_map.1 hx
    exact b.val.isLt
  unfold concreteDecodeSegment concreteEncodeSegment
  have hf : List.filter (fun c => decide (c ≠ '\r' ∧ c ≠ '\n'))
      (b64Encode (bs.map UInt8.toNat) ++
        List.replicate ((4 - (b64Encode (bs.map UInt8.toNat)).length % 4) % 4) '=') =
      b64Encode (bs.map UInt8.toNat) ++
        List.replicate ((4 - (b64Encode (bs.map UInt8.toNat)).length % 4) % 4) '=' := by
    apply List.filter_eq_self.2
    intro c hc
    rcases List.mem_append.1 hc with hc | hc
    · simpa using b64Encode_plain _ hl c hc
    · rw [List.eq_of_mem_replicate hc]
      decide
  simp only [hf, b64DecodePadded_encode _ hl, Option.map_some', List.map_map,
    Option.some.injEq]
  conv_rhs => rw [← List.map_id bs]
  apply List.map_congr_left
  intro b _
  simp [UInt8.ofNat, UInt8.toNat]

/-! ### C4: a token signed under another key -/

theorem splitChars_ne_nil (sep : Char) (l : List Char) : splitChars sep l ≠ [] := by
  cases l with
  | nil => simp [splitChars]
  | cons c cs =>
    unfold splitChars
    split
    · simp
    · split <;> simp

theorem splitChars_append (sep : Char) (a rest : List Char) :
    splitChars sep (a ++ sep :: rest) = splitChars sep a ++ splitChars sep rest := by
  induction a with
  | nil => simp [splitChars]
  | cons c cs ih =>
    simp only [List.cons_append, splitChars, List.append_eq]
    by_cases hc : c = sep
    · simp [hc, ih]
    · simp only [hc, if_false, ih]
      cases hs : splitChars sep cs with
      | nil => exact absurd hs (splitChars_ne_nil sep cs)
      | cons p ps => simp

theorem splitChars_single (sep : Char) (l x : List Char) (h : splitChars sep l = [x]) :
    x = l := by
  induction l generalizing x with
  | nil => simpa [splitChars] using h.symm
  | cons c cs ih =>
    unfold splitChars at h
    by_cases hc : c = sep
    · simp only [hc, if_true, List.cons.injEq] at h
      exact absurd h.2 (splitChars_ne_nil sep cs)
    · simp only [hc, if_false] at h
      cases hs : splitChars sep cs with
      | nil => exact absurd hs (splitChars_ne_nil sep cs)
      | cons p ps =>
        rw [hs] at h
        simp only [List.cons.injEq] at h
        obtain ⟨rfl, rfl⟩ := h
        rw [ih p hs]

/-- Splitting `a.b.c` gives three parts only when they are `a`, `b`, `c`. -/
theorem stringsSplitDot_three (a b c p0 p1 p2 : String)
    (h : stringsSplitDot (a ++ "." ++ b ++ "." ++ c) = [p0, p1, p2]) :
    p0 = a ∧ p1 = b ∧ p2 = c := by
  unfold stringsSplitDot at h
  have hd : (a ++ "." ++ b ++ "." ++ c).data = a.data ++ '.' :: (b.data ++ '.' :: c.data) := by
    simp [String.data_append]
  rw [hd, splitChars_append, splitChars_append] at h
  have ha := splitChars_ne_nil '.' a.data
  have hb := splitChars_ne_nil '.' b.data
  have hc := splitChars_ne_nil '.' c.data
  rcases hsa : splitChars '.' a.data with _ | ⟨xa, ta⟩
  · exact absurd hsa ha
  rcases hsb : splitChars '.' b.data with _ | ⟨xb, tb⟩
  · exact absurd hsb hb
  rcases hsc : splitChars '.' c.data with _ | ⟨xc, tc⟩
  · exact absurd hsc hc
  rw [hsa, hsb, hsc] at h
  have hlen := congrArg List.length h
  simp only [List.map_append, List.map_cons, List.length_append, List.length_cons,
    List.length_map, List.length_nil] at hlen
  have hta : ta = [] := List.length_eq_zero.1 (by omega)
  have htb : tb = [] := List.length_eq_zero.1 (by omega)
  have htc : tc = [] := List.length_eq_zero.1 (by omega)
  subst hta htb htc
  simp only [List.map_append, List.map_cons, List.map_nil, List.cons_append, List.nil_append,
    List.cons.injEq, and_true] at h
  obtain ⟨h0, h1, h2⟩ := h
  rw [splitChars_single _ _ _ hsa] at h0
  rw [splitChars_single _ _ _ hsb] at h1
  rw [splitChars_single _ _ _ hsc] at h2
  exact ⟨h0.symm, h1.symm, h2.symm⟩

/-- What `ParseUnverified` has read when it returns no error. -/
theorem ParseUnverified_reads (L : Lib) (out : String) (tok : Token) (p0 p1 p2 : String)
    (h : ParseUnverified L out = (some tok, [p0, p1, p2], none)) :
    stringsSplitDot out = [p0, p1, p2] ∧
    ∃ hv hdr alg m, (L.decodeSegment p0).bind L.jsonUnmarshal = some hv ∧
      asMap hv = some hdr ∧ mapIndex hdr "alg" = GoValue.str alg ∧
      GetSigningMethod alg = some m ∧ tok.Method = some m := by
  unfold ParseUnverified at h
  dsimp only at h
  split at h
  · rename_i q0 q1 q2 hsplit
    split at h
    · simp at h
    · rename_i hv hhv
      split at h
      · simp at h
      · rename_i hdr hhdr
        split at h
        · simp at h
        · split at h
          · rename_i alg halg
            split at h
            · simp at h
            · rename_i m hm
              simp only [Prod.mk.injEq, Option.some.injEq, and_true] at h
              obtain ⟨h1, h2⟩ := h
              rw [hsplit] at h2
              simp only [List.cons.injEq, and_true] at h2
              obtain ⟨rfl, rfl, rfl⟩ := h2
              refine ⟨hsplit, hv, hdr, alg, m, hhv, hhdr, halg, hm, ?_⟩
              rw [← h1]
          · simp at h
  · simp at h

/-- The HMAC tag is the digest of the outer input. -/
theorem hmacSum_eq_hash_outer (L : Lib) (h : HashAlg) (key msg : List UInt8) :
    hmacSum L h key msg = L.hash h (hmacOuterInput L h key msg) := rfl

/-- The key block is one block long when the digest is no longer than a
block. -/
theorem hmacKeyBlock_length (L : Lib) (h : HashAlg) (key : List UInt8)
    (hlen : ∀ x, (L.hash h x).length ≤ h.blockSize) :
    (hmacKeyBlock L h key).length = h.blockSize := by
  unfold hmacKeyBlock
  by_cases hk : key.length > h.blockSize
  · have := hlen key
    simp only [hk, if_true, List.length_append, List.length_replicate]
    omega
  · simp only [hk, if_false, List.length_append, List.length_replicate]
    omega

/-- The xor with the outer pad byte is an involution. -/
theorem xor_opad_cancel (a : UInt8) : (a ^^^ 0x5c) ^^^ 0x5c = a := by
  rcases a with ⟨a⟩
  revert a
  decide

theorem xor_opad_injective : Function.Injective (fun b : UInt8 => b ^^^ 0x5c) := by
  intro a b hab
  have := congrArg (fun x : UInt8 => x ^^^ 0x5c) hab
  simpa only [xor_opad_cancel] using this

/-- Keys with different key blocks give different inputs to the outer hash of
HMAC. -/
theorem hmacOuterInput_ne (L : Lib) (h : HashAlg) (k1 k2 m1 m2 : List UInt8)
    (hlen : ∀ x, (L.hash h x).length ≤ h.blockSize)
    (hblocks : hmacKeyBlock L h k1 ≠ hmacKeyBlock L h k2) :
    hmacOuterInput L h k1 m1 ≠ hmacOuterInput L h k2 m2 := by
  intro heq
  unfold hmacOuterInput at heq
  have hl : ((hmacKeyBlock L h k1).map (fun b => b ^^^ 0x5c)).length =
      ((hmacKeyBlock L h k2).map (fun b => b ^^^ 0x5c)).length := by
    simp only [List.length_map, hmacKeyBlock_length L h _ hlen]
  exact hblocks (List.map_injective_iff.2 xor_opad_injective (List.append_inj heq hl).1)

/-- A token signed under one key is rejected under any key that gives its
signing string another HMAC tag. -/
theorem rejected_of_tags_differ (W : World) (s1 s2 claimsJSON sstr token : String)
    (tr : List Event) (hlib : ReadsBack W.lib)
    (hss : SigningString W.lib (some claimsJSON) = some sstr)
    (hsign : SignedString W.lib (some claimsJSON) (utf8 s1) = some token)
    (htag : hmacSum W.lib HashAlg.SHA256 (utf8 s1) (utf8 sstr) ≠
      hmacSum W.lib HashAlg.SHA256 (utf8 s2) (utf8 sstr)) :
    (handleResponse W s2 ⟨token, true⟩ tr).1.failed = true ∧
    (handleResponse W s2 ⟨token, true⟩ tr).2 = tr ++ [Event.parse token] := by
  apply handleResponse_rejected
  rintro ⟨h, claims, tok, p0, p1, p2, hpu, hm, _, hv, _⟩
  obtain ⟨hsplit, hv0, hdr, alg, m, hdec, hmap, halg, hgsm, hm2⟩ :=
    ParseUnverified_reads _ _ _ _ _ _ hpu
  unfold SigningString at hss
  cases hmh : W.lib.marshalHeader "HS256" with
  | none => simp [hmh] at hss
  | some headerJSON =>
    simp only [hmh, Option.some.injEq] at hss
    simp only [SignedString, SigningString, hmh, Option.map_some', Option.some.injEq] at hsign
    rw [hss] at hsign
    have htok : token = W.lib.encodeSegment (utf8 headerJSON) ++ "." ++
        W.lib.encodeSegment (utf8 claimsJSON) ++ "." ++
        hmacSign W.lib HashAlg.SHA256 sstr (utf8 s1) := by
      rw [← hsign, ← hss]
    rw [htok] at hsplit
    obtain ⟨rfl, rfl, rfl⟩ := stringsSplitDot_three _ _ _ _ _ _ hsplit
    obtain ⟨mh, hun, halg2⟩ := hlib.header headerJSON hmh
    rw [hlib.segment, Option.some_bind, hun] at hdec
    simp only [Option.some.injEq] at hdec
    subst hdec
    simp only [asMap, Option.some.injEq] at hmap
    subst hmap
    rw [halg2] at halg
    simp only [GoValue.str.injEq] at halg
    subst halg
    rw [hm] at hm2
    simp only [GetSigningMethod, if_true, Option.some.injEq] at hgsm
    rw [← hgsm] at hm2
    simp only [Option.some.injEq, SigningMethod.HMAC.injEq] at hm2
    subst hm2
    simp only [Verify, hmacSign, hlib.segment, decide_eq_true_eq] at hv
    rw [hss] at hv
    exact htag hv

/-- C4 (amended). Let `s1` and `s2` be API keys whose HMAC key blocks differ
(the key block is the key, hashed first when longer than 64 bytes, padded with
zero bytes to 64 bytes).  A token signed as `RpcMethod` signs it, HS256 under
`[]byte(s1)`, is rejected by the reply verifier of `RpcMethod` run with
`apiKey = s2`: the call fails and the claims are not read; or else the two
keys exhibit a collision of SHA-256: the inputs of the outer hash of HMAC
under `s1` and under `s2` are different byte strings with the same digest.
The library is assumed to read back what it writes, and the digest to be no
longer than a block. -/
theorem C4_mismatched_key_rejected (W : World) (s1 s2 claimsJSON sstr token : String)
    (tr : List Event) (hlib : ReadsBack W.lib)
    (hlen : ∀ x, (W.lib.hash HashAlg.SHA256 x).length ≤ 64)
    (hss : SigningString W.lib (some claimsJSON) = some sstr)
    (hsign : SignedString W.lib (some claimsJSON) (utf8 s1) = some token)
    (hblocks : hmacKeyBlock W.lib HashAlg.SHA256 (utf8 s1) ≠
      hmacKeyBlock W.lib HashAlg.SHA256 (utf8 s2)) :
    ((handleResponse W s2 ⟨token, true⟩ tr).1.failed = true ∧
      (handleResponse W s2 ⟨token, true⟩ tr).2 = tr ++ [Event.parse token]) ∨
    (hmacOuterInput W.lib HashAlg.SHA256 (utf8 s1) (utf8 sstr) ≠
        hmacOuterInput W.lib HashAlg.SHA256 (utf8 s2) (utf8 sstr) ∧
      W.lib.hash HashAlg.SHA256 (hmacOuterInput W.lib HashAlg.SHA256 (utf8 s1) (utf8 sstr)) =
        W.lib.hash HashAlg.SHA256
          (hmacOuterInput W.lib HashAlg.SHA256 (utf8 s2) (utf8 sstr))) := by
  by_cases htag : hmacSum W.lib HashAlg.SHA256 (utf8 s1) (utf8 sstr) =
      hmacSum W.lib HashAlg.SHA256 (utf8 s2) (utf8 sstr)
  · exact Or.inr ⟨hmacOuterInput_ne _ _ _ _ _ _ hlen hblocks, htag⟩
  · exact Or.inl (rejected_of_tags_differ W s1 s2 claimsJSON sstr token tr hlib hss hsign htag)

/-- The digest of `sha2` is at most `outLen` bytes long. -/
theorem sha2_length (p : Sha2) (m : List Nat) : (sha2 p m).length ≤ p.outLen := by
  unfold sha2
  exact List.length_take_le _ _

theorem sha2Hash_length (x : List UInt8) : (sha2Hash HashAlg.SHA256 x).length ≤ 32 := by
  unfold sha2Hash
  rw [List.length_map]
  exact sha2_length sha256Params _

/-- The concrete library reads back what it writes. -/
theorem concreteLib_readsBack : ReadsBack concreteLib where
  segment := concrete_decode_encode
  header := by
    intro text h
    have : text = "\x7b\"alg\":\"HS256\",\"typ\":\"JWT\"\x7d" := by
      simp only [concreteLib, concreteMarshalHeader, Option.some.injEq] at h
      rw [← h]
      decide
    subst this
    exact ⟨[("alg", GoValue.str "HS256"), ("typ", GoValue.str "JWT")], by rfl, by rfl⟩

/-- Appending a zero byte to a key shorter than the block does not change the
key block of HMAC, whatever the hash function. -/
theorem hmacKeyBlock_append_zero (L : Lib) (h : HashAlg) (key : List UInt8)
    (hlen : key.length < h.blockSize) :
    hmacKeyBlock L h (key ++ [0]) = hmacKeyBlock L h key := by
  unfold hmacKeyBlock
  have h1 : ¬ (key ++ [0]).length > h.blockSize := by simp; omega
  have h2 : ¬ key.length > h.blockSize := by omega
  rw [if_neg h1, if_neg h2]
  simp only [List.length_append, List.length_singleton]
  obtain ⟨k, hk⟩ : ∃ k, h.blockSize - key.length = k + 1 :=
    ⟨h.blockSize - key.length - 1, by omega⟩
  have hk2 : h.blockSize - (key.length + 1) = k := by omega
  rw [hk, hk2, List.replicate_succ]
  simp

/-- The keys `k` and `k` followed by a zero byte give the same HMAC tag for
every message, whatever the hash function. -/
theorem hmacSum_zero_padded_key (L : Lib) (h : HashAlg) (msg : List UInt8) :
    hmacSum L h (utf8 "k\x00") msg = hmacSum L h (utf8 "k") msg := by
  have e : utf8 "k\x00" = utf8 "k" ++ [0] := by decide
  have hlen : (utf8 "k").length < h.blockSize := by cases h <;> decide
  unfold hmacSum
  rw [e, hmacKeyBlock_append_zero L h _ hlen]

/-- C4 at a concrete run: the keys `test-api-key` and `another-api-key` have
different key blocks, and the token signed under the first is rejected by the
verifier run with the second. -/
theorem C4_mismatched_key_rejected_witness :
    SigningString concreteLib (some claimsTextHeight1a) =
      some ("eyJhbGciOiJIUzI1NiIsInR5cCI6IkpXVCJ9." ++
        "eyJleHAiOjQxMDI0NDQ4MDAsImp3dF9pbmZvIjp7InJlc3VsdCI6IjB4MWEifX0") ∧
    SignedString concreteLib (some claimsTextHeight1a) (utf8 "test-api-key") =
      some tokenHeight1a ∧
    hmacKeyBlock concreteLib HashAlg.SHA256 (utf8 "test-api-key") ≠
      hmacKeyBlock concreteLib HashAlg.SHA256 (utf8 "another-api-key") ∧
    (handleResponse (scriptedWorld []) "another-api-key" ⟨tokenHeight1a, true⟩ []).1.failed =
      true :=
  ⟨by rfl, by rfl, by decide,
    ((C4_mismatched_key_rejected (scriptedWorld []) "test-api-key" "another-api-key"
      claimsTextHeight1a _ tokenHeight1a [] concreteLib_readsBack
      (fun x => Nat.le_trans (sha2Hash_length x) (by decide)) (by rfl) (by rfl)
      (by decide)).resolve_right (fun hc => absurd hc.2 (by decide))).1⟩

/-- The base64url alphabet has no dot. -/
theorem b64Char_ne_dot (i : Nat) : b64Char i ≠ '.' := by
  by_cases h : i < 64
  · interval_cases i <;> decide
  · unfold b64Char
    rw [List.getD_eq_default _ _ (by simpa [b64Alphabet] using h)]
    decide

theorem b64Encode_no_dot : ∀ l : List Nat, ∀ c ∈ b64Encode l, c ≠ '.' := by
  intro l
  induction l using b64Encode.induct with
  | case1 a b c rest ih =>
    intro x hx
    simp only [b64Encode, List.mem_cons] at hx
    rcases hx with rfl | rfl | rfl | rfl | hx
    · exact b64Char_ne_dot _
    · exact b64Char_ne_dot _
    · exact b64Char_ne_dot _
    · exact b64Char_ne_dot _
    · exact ih x hx
  | case2 a b =>
    intro x hx
    simp only [b64Encode, List.mem_cons, List.not_mem_nil, or_false] at hx
    rcases hx with rfl | rfl | rfl <;> exact b64Char_ne_dot _
  | case3 a =>
    intro x hx
    simp only [b64Encode, List.mem_cons, List.not_mem_nil, or_false] at hx
    rcases hx with rfl | rfl <;> exact b64Char_ne_dot _
  | case4 =>
    intro x hx
    simp [b64Encode] at hx

/-- A text without the separator is one part. -/
theorem splitChars_no_sep (sep : Char) (l : List Char) (h : ∀ c ∈ l, c ≠ sep) :
    splitChars sep l = [l] := by
  induction l with
  | nil => rfl
  | cons c cs ih =>
    have hc : c ≠ sep := h c (List.mem_cons_self _ _)
    have := ih (fun x hx => h x (List.mem_cons_of_mem _ hx))
    simp only [splitChars, hc, if_false, this]

/-- The token signed under a key `s1` is accepted under every key `s2` that
gives its signing string the same HMAC tag. -/
theorem accepted_of_equal_tags (s1 s2 token : String)
    (hsign : SignedString concreteLib (some claimsTextHeight1a) (utf8 s1) = some token)
    (htag : hmacSum concreteLib HashAlg.SHA256 (utf8 s1)
        (utf8 ("eyJhbGciOiJIUzI1NiIsInR5cCI6IkpXVCJ9." ++
          "eyJleHAiOjQxMDI0NDQ4MDAsImp3dF9pbmZvIjp7InJlc3VsdCI6IjB4MWEifX0")) =
      hmacSum concreteLib HashAlg.SHA256 (utf8 s2)
        (utf8 ("eyJhbGciOiJIUzI1NiIsInR5cCI6IkpXVCJ9." ++
          "eyJleHAiOjQxMDI0NDQ4MDAsImp3dF9pbmZvIjp7InJlc3VsdCI6IjB4MWEifX0"))) :
    (handleResponse (scriptedWorld []) s2 ⟨token, true⟩ []).1 =
      Outcome.ret (GoValue.str "0x1a") := by
  have hss : SigningString concreteLib (some claimsTextHeight1a) =
      some ("eyJhbGciOiJIUzI1NiIsInR5cCI6IkpXVCJ9." ++
        "eyJleHAiOjQxMDI0NDQ4MDAsImp3dF9pbmZvIjp7InJlc3VsdCI6IjB4MWEifX0") := by rfl
  simp only [SignedString, hss, Option.map_some', Option.some.injEq] at hsign
  set e := hmacSign concreteLib HashAlg.SHA256
    ("eyJhbGciOiJIUzI1NiIsInR5cCI6IkpXVCJ9." ++
      "eyJleHAiOjQxMDI0NDQ4MDAsImp3dF9pbmZvIjp7InJlc3VsdCI6IjB4MWEifX0") (utf8 s1) with he
  have hsplit : stringsSplitDot token =
      ["eyJhbGciOiJIUzI1NiIsInR5cCI6IkpXVCJ9",
       "eyJleHAiOjQxMDI0NDQ4MDAsImp3dF9pbmZvIjp7InJlc3VsdCI6IjB4MWEifX0", e] := by
    rw [← hsign]
    unfold stringsSplitDot
    have hd : (("eyJhbGciOiJIUzI1NiIsInR5cCI6IkpXVCJ9." ++
        "eyJleHAiOjQxMDI0NDQ4MDAsImp3dF9pbmZvIjp7InJlc3VsdCI6IjB4MWEifX0") ++ "." ++ e).data =
        ("eyJhbGciOiJIUzI1NiIsInR5cCI6IkpXVCJ9." ++
        "eyJleHAiOjQxMDI0NDQ4MDAsImp3dF9pbmZvIjp7InJlc3VsdCI6IjB4MWEifX0").data ++
          '.' :: e.data := by
      simp only [String.data_append]
      rfl
    rw [hd, splitChars_append]
    have h1 : splitChars '.' e.data = [e.data] := by
      apply splitChars_no_sep
      rw [he]
      exact b64Encode_no_dot _
    rw [h1]
    rfl
  have hacc : Accepted (scriptedWorld []).lib ((scriptedWorld []).now []) s2 token
      HashAlg.SHA256 [("exp", GoValue.float64 4102444800),
        ("jwt_info", GoValue.map [("result", GoValue.str "0x1a")])] := by
    refine ⟨⟨token, some (SigningMethod.HMAC HashAlg.SHA256),
      [("alg", GoValue.str "HS256"), ("typ", GoValue.str "JWT")],
      some [("exp", GoValue.float64 4102444800),
        ("jwt_info", GoValue.map [("result", GoValue.str "0x1a")])], "", false⟩,
      "eyJhbGciOiJIUzI1NiIsInR5cCI6IkpXVCJ9",
      "eyJleHAiOjQxMDI0NDQ4MDAsImp3dF9pbmZvIjp7InJlc3VsdCI6IjB4MWEifX0", e, ?_, rfl, rfl, ?_, ?_⟩
    · unfold ParseUnverified
      rw [hsplit]
      rfl
    · show Verify concreteLib _ _ _ _ = true
      unfold Verify
      have hdec : concreteLib.decodeSegment e = some (hmacSum concreteLib HashAlg.SHA256
          (utf8 s1) (utf8 ("eyJhbGciOiJIUzI1NiIsInR5cCI6IkpXVCJ9." ++
          "eyJleHAiOjQxMDI0NDQ4MDAsImp3dF9pbmZvIjp7InJlc3VsdCI6IjB4MWEifX0"))) :=
        concrete_decode_encode _
      simp only [hdec, decide_eq_true_eq]
      rw [htag]
      rfl
    · rfl
  rw [handleResponse_accepted _ _ _ _ _ _ hacc]
  rfl

/-- An ASCII character is one byte, its code. -/
theorem utf8EncodeChar_ascii : ∀ n : Fin 128,
    String.utf8EncodeChar (Char.ofNat n) = [UInt8.ofNat n] := by
  decide

theorem utf8_asciiKey (k : Fin 64 → Fin 128) :
    utf8 (asciiKey k) = (List.finRange 64).map (fun i => UInt8.ofNat (k i)) := by
  unfold utf8 asciiKey
  generalize List.finRange 64 = l
  induction l with
  | nil => rfl
  | cons i l ih =>
    simp only [List.map_cons, List.flatMap_cons, utf8EncodeChar_ascii, List.singleton_append,
      List.cons.injEq, true_and]
    exact ih

theorem ofNat_ascii_injective : ∀ a b : Fin 128, UInt8.ofNat a = UInt8.ofNat b → a = b := by
  have hval : ∀ a : Fin 128, (UInt8.ofNat a).toNat = a := by decide
  intro a b h
  have h2 := congrArg UInt8.toNat h
  rw [hval, hval] at h2
  exact Fin.ext h2

/-- A key of 64 bytes is its own key block. -/
theorem hmacKeyBlock_asciiKey (k : Fin 64 → Fin 128) :
    hmacKeyBlock concreteLib HashAlg.SHA256 (utf8 (asciiKey k)) = utf8 (asciiKey k) := by
  have hl : (utf8 (asciiKey k)).length = 64 := by
    rw [utf8_asciiKey]
    simp
  unfold hmacKeyBlock
  simp [hl, HashAlg.blockSize]

/-- Different 64-character ASCII keys have different key blocks. -/
theorem asciiKey_blocks_ne (k1 k2 : Fin 64 → Fin 128) (h : k1 ≠ k2) :
    hmacKeyBlock concreteLib HashAlg.SHA256 (utf8 (asciiKey k1)) ≠
      hmacKeyBlock concreteLib HashAlg.SHA256 (utf8 (asciiKey k2)) := by
  rw [hmacKeyBlock_asciiKey, hmacKeyBlock_asciiKey, utf8_asciiKey, utf8_asciiKey]
  intro heq
  apply h
  funext i
  have := (List.map_inj_left.1 heq) i (List.mem_finRange i)
  exact ofNat_ascii_injective _ _ this

/-- Byte strings of at most 32 bytes are determined by their length and their
first 32 bytes. -/
theorem bytes_ext (l1 l2 : List UInt8) (h1 : l1.length ≤ 32)
    (hl : l1.length = l2.length) (hg : ∀ i : Fin 32, l1.getD i 0 = l2.getD i 0) : l1 = l2 := by
  apply List.ext_getElem hl
  intro i hi1 hi2
  have := hg ⟨i, by omega⟩
  simpa only [List.getD_eq_getElem?_getD, List.getElem?_eq_getElem hi1,
    List.getElem?_eq_getElem hi2, Option.getD_some] using this

/-- There are more 64-character ASCII keys than HMAC-SHA256 tags: two keys
with different key blocks give the same tag to any message. -/
theorem exists_tag_collision (msg : List UInt8) : ∃ k1 k2 : Fin 64 → Fin 128, k1 ≠ k2 ∧
    hmacSum concreteLib HashAlg.SHA256 (utf8 (asciiKey k1)) msg =
      hmacSum concreteLib HashAlg.SHA256 (utf8 (asciiKey k2)) msg := by
  have hlen : ∀ k : Fin 64 → Fin 128,
      (hmacSum concreteLib HashAlg.SHA256 (utf8 (asciiKey k)) msg).length ≤ 32 :=
    fun k => sha2Hash_length _
  let f : (Fin 64 → Fin 128) → Fin 33 × (Fin 32 → Fin 256) := fun k =>
    (⟨(hmacSum concreteLib HashAlg.SHA256 (utf8 (asciiKey k)) msg).length,
        Nat.lt_succ_of_le (hlen k)⟩,
      fun i => ((hmacSum concreteLib HashAlg.SHA256 (utf8 (asciiKey k)) msg).getD i 0).val)
  have hcard : Fintype.card (Fin 33 × (Fin 32 → Fin 256)) <
      Fintype.card (Fin 64 → Fin 128) := by
    simp only [Fintype.card_prod, Fintype.card_fin, Fintype.card_fun]
    norm_num
  obtain ⟨k1, k2, hne, heq⟩ := Fintype.exists_ne_map_eq_of_card_lt f hcard
  refine ⟨k1, k2, hne, ?_⟩
  simp only [f, Prod.mk.injEq, Fin.mk.injEq] at heq
  apply bytes_ext _ _ (hlen k1) heq.1
  intro i
  have := congrFun heq.2 i
  exact UInt8.eq_of_val_eq this

/-- C4 as stated fails, in two ways.  First, the API keys `k` and `k` followed
by a zero byte are different, yet the token signed with HS256 under the first
is accepted by the reply verifier of `RpcMethod` run with the second, and its
result is returned: HMAC pads a short key with zero bytes, so the two keys
have the same key block and give the same tag (`hmacSum_zero_padded_key`).
Second, keys with different key blocks do not suffice either: there are more
64-character ASCII keys (`128^64`) than HMAC-SHA256 tags (at most `33 * 256^32`
byte strings of up to 32 bytes), so two API keys `s1`, `s2` with different key
blocks give the signing string the same tag, and the token signed under `s1`
is accepted under `s2` and its result returned. -/
theorem C4_counterexample :
    ("k" ≠ "k\x00" ∧
      SignedString concreteLib (some claimsTextHeight1a) (utf8 "k") = some tokenSignedK ∧
      (RpcMethod (scriptedWorld [⟨tokenSignedK, true⟩]) "k\x00" "did:elastos:iTest"
          "mainnet" "eth" "eth_blockNumber" (GoValue.map []) []).1 =
        Outcome.ret (GoValue.str "0x1a")) ∧
    (∃ s1 s2 token : String,
      hmacKeyBlock concreteLib HashAlg.SHA256 (utf8 s1) ≠
        hmacKeyBlock concreteLib HashAlg.SHA256 (utf8 s2) ∧
      SignedString concreteLib (some claimsTextHeight1a) (utf8 s1) = some token ∧
      (handleResponse (scriptedWorld []) s2 ⟨token, true⟩ []).1 =
        Outcome.ret (GoValue.str "0x1a")) := by
  refine ⟨⟨by decide, by rfl, by rfl⟩, ?_⟩
  obtain ⟨k1, k2, hne, htag⟩ := exists_tag_collision
    (utf8 ("eyJhbGciOiJIUzI1NiIsInR5cCI6IkpXVCJ9." ++
      "eyJleHAiOjQxMDI0NDQ4MDAsImp3dF9pbmZvIjp7InJlc3VsdCI6IjB4MWEifX0"))
  exact ⟨asciiKey k1, asciiKey k2, _, asciiKey_blocks_ne k1 k2 hne, rfl,
    accepted_of_equal_tags _ _ _ rfl htag⟩

/-! ### C6: a call descriptor that cannot be serialised -/

/-- C6 (amended). When `json.Marshal` fails on the call descriptor, `RpcMethod`
signals no encoding error: the error is discarded, a credential whose
`jwt_info` is the empty string is signed and handed to the connection, and
the outcome of the request is that of the remote endpoint. -/
theorem C6_marshal_error_discarded (W : World) (apiKey did network chain method : String)
    (params : GoValue) (tr : List Event) (tok : String)
    (hmarshal : W.lib.marshalInfo ⟨network, chain, method, params⟩ = none)
    (hsign : SignedString W.lib (W.lib.marshalClaims ⟨"", W.expiresAt tr⟩) (utf8 apiKey) =
      some tok) :
    sendRequest W apiKey did network chain method params tr =
      ((match W.remote tr ⟨tok, did⟩ with
        | Except.error _ => Outcome.fatal "Failed to execute 'RpcMethod' method"
        | Except.ok response => Outcome.ret response),
       tr ++ [Event.call apiKey did network chain method params, Event.signed tok,
         Event.invoke ⟨tok, did⟩]) := by
  unfold sendRequest
  simp only [hmarshal, hsign]
  cases W.remote tr ⟨tok, did⟩ <;> simp

/-- C6 at a concrete run: `params` is a channel. -/
theorem C6_marshal_error_discarded_witness :
    concreteLib.marshalInfo ⟨"mainnet", "eth", "eth_blockNumber", GoValue.chan⟩ = none ∧
    SignedString concreteLib (concreteLib.marshalClaims ⟨"", 1700000030⟩)
      (utf8 "test-api-key") = some tokenEmptyInfo ∧
    sendRequest (scriptedWorld [⟨"", false⟩]) "test-api-key" "did:elastos:iTest"
        "mainnet" "eth" "eth_blockNumber" GoValue.chan [] =
      (Outcome.ret ⟨"", false⟩,
       [Event.call "test-api-key" "did:elastos:iTest" "mainnet" "eth" "eth_blockNumber"
          GoValue.chan, Event.signed tokenEmptyInfo,
        Event.invoke ⟨tokenEmptyInfo, "did:elastos:iTest"⟩]) :=
  ⟨by rfl, by rfl,
    C6_marshal_error_discarded (scriptedWorld [⟨"", false⟩]) "test-api-key"
      "did:elastos:iTest" "mainnet" "eth" "eth_blockNumber" GoValue.chan [] tokenEmptyInfo
      (by rfl) (by rfl)⟩

/-- C6 as stated fails: `params` is a channel, which `json.Marshal` cannot
serialise, yet `RpcMethod` does not fail; it signs the credential
`tokenEmptyInfo`, hands it to the connection, and returns nil on the reply
with `Status = false`. -/
theorem C6_counterexample :
    concreteLib.marshalInfo ⟨"mainnet", "eth", "eth_blockNumber", GoValue.chan⟩ = none ∧
    RpcMethod (scriptedWorld [⟨"", false⟩]) "test-api-key" "did:elastos:iTest"
        "mainnet" "eth" "eth_blockNumber" GoValue.chan [] =
      (Outcome.ret GoValue.nil,
       [Event.call "test-api-key" "did:elastos:iTest" "mainnet" "eth" "eth_blockNumber"
          GoValue.chan, Event.signed tokenEmptyInfo,
        Event.invoke ⟨tokenEmptyInfo, "did:elastos:iTest"⟩]) :=
  ⟨by rfl, by rfl⟩

/-! ### C7: hexadecimal heights -/

theorem replaceLoop_no_x : ∀ (d : List Char) (fuel : Nat), d.length ≤ fuel →
    (∀ c ∈ d, c ≠ 'x') → replaceLoop ['0', 'x'] [] fuel d = d := by
  intro d
  induction d with
  | nil => intro fuel _ _; cases fuel <;> rfl
  | cons c cs ih =>
    intro fuel hf hx
    obtain ⟨f, rfl⟩ : ∃ f, fuel = f + 1 := ⟨fuel - 1, by simp at hf; omega⟩
    have hnp : List.isPrefixOf ['0', 'x'] (c :: cs) = false := by
      cases cs with
      | nil => simp [List.isPrefixOf]
      | cons c2 cs2 =>
        have : c2 ≠ 'x' := hx c2 (by simp)
        simp only [List.isPrefixOf, Bool.and_eq_false_imp, beq_iff_eq, Bool.and_true,
          beq_eq_false_iff_ne, ne_eq]
        intro _ h
        exact this h.symm
    simp only [replaceLoop, hnp]
    rw [ih f (by simp at hf; omega) (fun c hc => hx c (List.mem_cons_of_mem _ hc))]
    simp

theorem replaceLoop_0x_head (f : Nat) (d : List Char) :
    replaceLoop ['0', 'x'] [] (f + 1) ('0' :: 'x' :: d) = replaceLoop ['0', 'x'] [] f d := by
  simp [replaceLoop, List.isPrefixOf]

/-- Removing every `0x` from `0x` followed by characters other than `x` leaves
those characters. -/
theorem stringsReplaceAll_0x (d : List Char) (hx : ∀ c ∈ d, c ≠ 'x') :
    stringsReplaceAll ("0x" ++ String.mk d) "0x" "" = String.mk d := by
  have hdata : ("0x" ++ String.mk d).data = '0' :: 'x' :: d := rfl
  have hlen : ("0x" ++ String.mk d).length = d.length + 1 + 1 := rfl
  unfold stringsReplaceAll
  rw [if_neg (by decide), hdata, hlen]
  have e1 : ("0x" : String).data = ['0', 'x'] := rfl
  have e2 : ("" : String).data = [] := rfl
  rw [e1, e2, replaceLoop_0x_head, replaceLoop_no_x d _ (by omega) hx]

theorem hexDigit_ne_x (c : Char) (h : isHexDigit c = true) : c ≠ 'x' := by
  rintro rfl
  exact absurd h (by decide)

theorem digit_ne_x (c : Char) (k : Nat) (h : digitVal c = some k) (hk : k < 16) : c ≠ 'x' := by
  rintro rfl
  have : digitVal 'x' = some 33 := by decide
  rw [this] at h
  simp only [Option.some.injEq] at h
  omega

theorem SprintfV_natCast (n : Nat) : SprintfV (n : Int) = Nat.repr n := by
  unfold SprintfV
  rw [if_neg (by omega)]
  simp

/-- The hexadecimal post-processing of lines 177-179 and 151-153 on `0x`
followed by digits of value below `2^63`. -/
theorem hex_to_decimal (d : List Char) (hne : d ≠ [])
    (hd : ∀ c ∈ d, ∃ k, digitVal c = some k ∧ k < 16) (hn : loopValue 16 d 0 < 2 ^ 63) :
    SprintfV (ParseInt (stringsReplaceAll ("0x" ++ String.mk d) "0x" "").data 16).1 =
      Nat.repr (loopValue 16 d 0) := by
  rw [stringsReplaceAll_0x d (fun c hc => by
    obtain ⟨k, hk, hk16⟩ := hd c hc
    exact digit_ne_x c k hk hk16)]
  rw [ParseInt_digits 16 (by omega) (by omega) d hne hd hn]
  exact SprintfV_natCast _

/-- C7. On chain `eth`, when the unwrapped result of `eth_blockNumber` is `0x`
followed by a non-empty string `d` of hexadecimal digits (either case, leading
zeros allowed) whose base-16 value `n` is below `2^63`, `GetCurrentHeight`
returns the decimal string of `n`. -/
theorem C7_hex_height_to_decimal (W : World) (apiKey did network : String)
    (tr tr1 : List Event) (d : List Char) (n : Nat)
    (hne : d ≠ []) (hd : ∀ c ∈ d, isHexDigit c = true) (hval : hexValue d = n)
    (hn : n < 2 ^ 63)
    (hrpc : RpcMethod W apiKey did network "eth" "eth_blockNumber" (GoValue.map []) tr =
      (Outcome.ret (GoValue.str ("0x" ++ String.mk d)), tr1)) :
    GetCurrentHeight W apiKey did network "eth" tr = (Outcome.ret (Nat.repr n), tr1) := by
  have hd2 : ∀ c ∈ d, ∃ k, digitVal c = some k ∧ k < 16 := fun c hc =>
    ⟨_, (digitVal_of_isHexDigit c (hd c hc)).1, (digitVal_of_isHexDigit c (hd c hc)).2⟩
  have hv : loopValue 16 d 0 = n := by rw [loopValue_hex d hd, hval]
  unfold GetCurrentHeight
  rw [if_pos rfl, hrpc]
  simp only [assertString, Run.andThen]
  rw [hex_to_decimal d hne hd2 (by rw [hv]; exact hn), hv]

/-- C7 at two concrete runs: the results `0x1a` and `0x0` give `26` and `0`. -/
theorem C7_hex_height_to_decimal_witness :
    (RpcMethod (scriptedWorld [⟨tokenHeight1a, true⟩]) "test-api-key" "did:elastos:iTest"
        "mainnet" "eth" "eth_blockNumber" (GoValue.map []) []).1 =
      Outcome.ret (GoValue.str "0x1a") ∧
    hexValue ['1', 'a'] = 26 ∧
    (GetCurrentHeight (scriptedWorld [⟨tokenHeight1a, true⟩]) "test-api-key"
        "did:elastos:iTest" "mainnet" "eth" []).1 = Outcome.ret "26" ∧
    (RpcMethod (scriptedWorld [⟨tokenHeight0, true⟩]) "test-api-key" "did:elastos:iTest"
        "mainnet" "eth" "eth_blockNumber" (GoValue.map []) []).1 =
      Outcome.ret (GoValue.str "0x0") ∧
    hexValue ['0'] = 0 ∧
    (GetCurrentHeight (scriptedWorld [⟨tokenHeight0, true⟩]) "test-api-key"
        "did:elastos:iTest" "mainnet" "eth" []).1 = Outcome.ret "0" :=
  ⟨by rfl, by decide,
    congrArg Prod.fst (C7_hex_height_to_decimal (scriptedWorld [⟨tokenHeight1a, true⟩])
      "test-api-key" "did:elastos:iTest" "mainnet" [] _ ['1', 'a'] 26 (by simp) (by decide)
      (by decide) (by decide) (by rfl)),
    by rfl, by decide,
    congrArg Prod.fst (C7_hex_height_to_decimal (scriptedWorld [⟨tokenHeight0, true⟩])
      "test-api-key" "did:elastos:iTest" "mainnet" [] _ ['0'] 0 (by simp) (by decide)
      (by decide) (by decide) (by rfl))⟩

/-! ### C8: the two calls of `GetCurrentBlockInfo` -/

theorem callsOf_append (a b : List Event) : callsOf (a ++ b) = callsOf a ++ callsOf b := by
  induction a with
  | nil => rfl
  | cons e es ih => cases e <;> simp [callsOf, ih]

theorem handleResponse_calls (W : World) (apiKey : String) (r : Response) (tr : List Event) :
    callsOf (handleResponse W apiKey r tr).2 = callsOf tr := by
  unfold handleResponse
  split
  · dsimp only
    split
    · simp [callsOf_append, callsOf]
    · split
      · split <;> simp [callsOf_append, callsOf]
      · simp [callsOf_append, callsOf]
  · rfl

/-- A run of `RpcMethod` adds exactly one call to the calls made so far. -/
theorem RpcMethod_calls (W : World) (apiKey did network chain method : String)
    (params : GoValue) (tr : List Event) :
    callsOf (RpcMethod W apiKey did network chain method params tr).2 =
      callsOf tr ++ [Event.call apiKey did network chain method params] := by
  unfold RpcMethod sendRequest
  dsimp only
  split
  · simp [Run.andThen, callsOf_append, callsOf]
  · split
    · simp [Run.andThen, callsOf_append, callsOf]
    · simp only [Run.andThen]
      rw [handleResponse_calls]
      simp [callsOf_append, callsOf]

theorem hexString_eq (n : Nat) : hexString n = "0x" ++ String.mk (Nat.toDigits 16 n) := rfl

theorem Atoi_repr (n : Nat) (hn : n < 2 ^ 63) : Atoi (Nat.repr n) = ((n : Int), none) := by
  obtain ⟨hv, hd, hne⟩ := toDigits_spec 10 (by omega) (by omega) n
  unfold Atoi
  have : (Nat.repr n).data = Nat.toDigits 10 n := rfl
  rw [this, ParseInt_digits 10 (by omega) (by omega) _ hne hd (by rw [hv]; exact hn), hv]

theorem Sprintf0x02x_natCast (n : Nat) :
    Sprintf0x02x (n : Int) = String.mk ('0' :: 'x' ::
      (List.replicate (2 - (Nat.toDigits 16 n).length) '0' ++ Nat.toDigits 16 n)) := by
  unfold Sprintf0x02x
  have h : ¬ ((n : Int) < 0) := by omega
  simp only [h, if_false, Int.natAbs_ofNat, List.nil_append]

theorem Sprintf0x02x_large (n : Nat) (hn : 16 ≤ n) : Sprintf0x02x (n : Int) = hexString n := by
  rw [Sprintf0x02x_natCast]
  have := toDigits_length_two 16 (by omega) (by omega) n hn
  have h0 : 2 - (Nat.toDigits 16 n).length = 0 := by omega
  rw [h0]
  rfl

theorem Sprintf0x02x_small (n : Nat) (hn : n < 16) :
    Sprintf0x02x (n : Int) = String.mk ['0', 'x', '0', Nat.digitChar n] := by
  interval_cases n <;> decide

/-- The height that `GetCurrentHeight` returns on chain `eth` for the result
`0x` followed by the digits of `n`. -/
theorem GetCurrentHeight_hexString (W : World) (apiKey did network : String)
    (tr tr1 : List Event) (n : Nat) (hn : n < 2 ^ 63)
    (h1 : RpcMethod W apiKey did network "eth" "eth_blockNumber" (GoValue.map []) tr =
      (Outcome.ret (GoValue.str (hexString n)), tr1)) :
    GetCurrentHeight W apiKey did network "eth" tr = (Outcome.ret (Nat.repr n), tr1) := by
  obtain ⟨hv, hd, hne⟩ := toDigits_spec 16 (by omega) (by omega) n
  unfold GetCurrentHeight
  rw [if_pos rfl, h1]
  simp only [assertString, Run.andThen]
  rw [hexString_eq, hex_to_decimal _ hne hd (by rw [hv]; exact hn), hv]

/-- C8 (amended). On chain `eth`, when the first call's result is `0x` followed
by the lowercase hexadecimal digits of a height `n < 2^63`,
`GetCurrentBlockInfo` issues exactly two calls in this order: `eth_blockNumber`,
then `eth_getBlockByNumber` with params `[h2, true]`, where `h2` is `0x`
followed by the hexadecimal digits of `n` zero-padded to two digits; it returns
the second call's result object unchanged.  The string `h2` is the string the
first call returned exactly when `n ≥ 16`; for `n < 16` it is `0x0` followed by
the digit. -/
theorem C8_current_block_info_calls (W : World) (apiKey did network : String)
    (tr tr1 tr2 : List Event) (n : Nat) (m : List (String × GoValue)) (hn : n < 2 ^ 63)
    (h1 : RpcMethod W apiKey did network "eth" "eth_blockNumber" (GoValue.map []) tr =
      (Outcome.ret (GoValue.str (hexString n)), tr1))
    (h2 : RpcMethod W apiKey did network "eth" "eth_getBlockByNumber"
        (GoValue.slice [GoValue.str (Sprintf0x02x n), GoValue.bool true]) tr1 =
      (Outcome.ret (GoValue.map m), tr2)) :
    GetCurrentBlockInfo W apiKey did network "eth" tr = (Outcome.ret m, tr2) ∧
    callsOf tr2 = callsOf tr ++
      [Event.call apiKey did network "eth" "eth_blockNumber" (GoValue.map []),
       Event.call apiKey did network "eth" "eth_getBlockByNumber"
         (GoValue.slice [GoValue.str (Sprintf0x02x n), GoValue.bool true])] ∧
    (16 ≤ n → Sprintf0x02x n = hexString n) ∧
    (n < 16 → Sprintf0x02x n = String.mk ['0', 'x', '0', Nat.digitChar n]) := by
  refine ⟨?_, ?_, Sprintf0x02x_large n, Sprintf0x02x_small n⟩
  · unfold GetCurrentBlockInfo
    rw [GetCurrentHeight_hexString W apiKey did network tr tr1 n hn h1]
    simp only [Run.andThen, GetBlockInfo, if_true]
    rw [Atoi_repr n hn]
    simp only
    rw [h2]
    rfl
  · have e1 := RpcMethod_calls W apiKey did network "eth" "eth_blockNumber" (GoValue.map []) tr
    have e2 := RpcMethod_calls W apiKey did network "eth" "eth_getBlockByNumber"
      (GoValue.slice [GoValue.str (Sprintf0x02x n), GoValue.bool true]) tr1
    rw [h1] at e1
    rw [h2] at e2
    simp only at e1 e2
    rw [e2, e1]
    simp

/-- C8 at a concrete run: the height is 12345, the endpoint answers `0x3039`
and then the block object. -/
theorem C8_current_block_info_calls_witness :
    (RpcMethod (scriptedWorld [⟨tokenHeight3039, true⟩, ⟨tokenBlock3039, true⟩])
        "test-api-key" "did:elastos:iTest" "mainnet" "eth" "eth_blockNumber"
        (GoValue.map []) []).1 = Outcome.ret (GoValue.str (hexString 12345)) ∧
    hexString 12345 = "0x3039" ∧
    (GetCurrentBlockInfo (scriptedWorld [⟨tokenHeight3039, true⟩, ⟨tokenBlock3039, true⟩])
        "test-api-key" "did:elastos:iTest" "mainnet" "eth" []).1 =
      Outcome.ret
        [("hash", GoValue.str
            "0x88e96d4537bea4d9c05d12549907b32561d3bf31f45aae734cdc119f13406cb6"),
          ("number", GoValue.str "0x3039"), ("transactions", GoValue.slice [])] ∧
    callsOf (GetCurrentBlockInfo
        (scriptedWorld [⟨tokenHeight3039, true⟩, ⟨tokenBlock3039, true⟩])
        "test-api-key" "did:elastos:iTest" "mainnet" "eth" []).2 =
      [Event.call "test-api-key" "did:elastos:iTest" "mainnet" "eth" "eth_blockNumber"
        (GoValue.map []),
       Event.call "test-api-key" "did:elastos:iTest" "mainnet" "eth" "eth_getBlockByNumber"
        (GoValue.slice [GoValue.str "0x3039", GoValue.bool true])] := by
  have h := C8_current_block_info_calls
    (scriptedWorld [⟨tokenHeight3039, true⟩, ⟨tokenBlock3039, true⟩])
    "test-api-key" "did:elastos:iTest" "mainnet" [] _ _ 12345
    [("hash", GoValue.str "0x88e96d4537bea4d9c05d12549907b32561d3bf31f45aae734cdc119f13406cb6"),
      ("number", GoValue.str "0x3039"), ("transactions", GoValue.slice [])]
    (by decide) (by rfl) (by rfl)
  exact ⟨by rfl, by decide, congrArg Prod.fst h.1, by rw [h.1]; exact h.2.1⟩

/-- C8 as stated fails for heights below 16: the first call returns `0x5`, and
the second call is issued with `0x05`, not with the string the first call
returned. -/
theorem C8_counterexample :
    (RpcMethod (scriptedWorld [⟨tokenHeight5, true⟩, ⟨tokenBlock5, true⟩])
        "test-api-key" "did:elastos:iTest" "mainnet" "eth" "eth_blockNumber"
        (GoValue.map []) []).1 = Outcome.ret (GoValue.str "0x5") ∧
    hexString 5 = "0x5" ∧
    callsOf (GetCurrentBlockInfo (scriptedWorld [⟨tokenHeight5, true⟩, ⟨tokenBlock5, true⟩])
        "test-api-key" "did:elastos:iTest" "mainnet" "eth" []).2 =
      [Event.call "test-api-key" "did:elastos:iTest" "mainnet" "eth" "eth_blockNumber"
        (GoValue.map []),
       Event.call "test-api-key" "did:elastos:iTest" "mainnet" "eth" "eth_getBlockByNumber"
        (GoValue.slice [GoValue.str "0x05", GoValue.bool true])] ∧
    "0x05" ≠ "0x5" :=
  ⟨by rfl, by decide, by rfl, by decide⟩

/-! ### C9: hexadecimal balances -/

/-- C9 (amended). On chain `eth`, when the unwrapped result of `eth_getBalance`
is `0x` followed by the hexadecimal digits of a number `n < 2^63`,
`GetCurrentBalance` returns the decimal string of `n`. -/
theorem C9_hex_balance_to_decimal (W : World) (apiKey did network address : String)
    (tr tr1 : List Event) (n : Nat) (hn : n < 2 ^ 63)
    (hrpc : RpcMethod W apiKey did network "eth" "eth_getBalance"
        (GoValue.slice [GoValue.str address, GoValue.str "latest"]) tr =
      (Outcome.ret (GoValue.str (hexString n)), tr1)) :
    GetCurrentBalance W apiKey did network "eth" address tr =
      (Outcome.ret (GoValue.str (Nat.repr n)), tr1) := by
  obtain ⟨hv, hd, hne⟩ := toDigits_spec 16 (by omega) (by omega) n
  unfold GetCurrentBalance
  rw [if_pos rfl]
  simp only
  rw [hrpc]
  simp only [assertString, Run.andThen]
  rw [hexString_eq, hex_to_decimal _ hne hd (by rw [hv]; exact hn), hv]

/-- C9 at a concrete run: the balance `0xde0b6b3a7640000` is 10^18. -/
theorem C9_hex_balance_to_decimal_witness :
    (RpcMethod (scriptedWorld [⟨tokenBalanceOneEther, true⟩]) "test-api-key"
        "did:elastos:iTest" "mainnet" "eth" "eth_getBalance"
        (GoValue.slice [GoValue.str "0x48F01b2f2b1a546927ee99dD03dCa37ff19cB84e",
          GoValue.str "latest"]) []).1 =
      Outcome.ret (GoValue.str (hexString 1000000000000000000)) ∧
    hexString 1000000000000000000 = "0xde0b6b3a7640000" ∧
    (GetCurrentBalance (scriptedWorld [⟨tokenBalanceOneEther, true⟩]) "test-api-key"
        "did:elastos:iTest" "mainnet" "eth" "0x48F01b2f2b1a546927ee99dD03dCa37ff19cB84e" []).1 =
      Outcome.ret (GoValue.str "1000000000000000000") :=
  ⟨by rfl, by decide,
    congrArg Prod.fst (C9_hex_balance_to_decimal (scriptedWorld [⟨tokenBalanceOneEther, true⟩])
      "test-api-key" "did:elastos:iTest" "mainnet" "0x48F01b2f2b1a546927ee99dD03dCa37ff19cB84e"
      [] _ 1000000000000000000 (by decide) (by rfl))⟩

/-- C9 as stated fails for `n = 2^63`: on the result `0x8000000000000000`
`GetCurrentBalance` returns `9223372036854775807`, the largest `int64`, and not
the decimal string `9223372036854775808` of `n`. -/
theorem C9_counterexample :
    (RpcMethod (scriptedWorld [⟨tokenBalanceBig, true⟩]) "test-api-key"
        "did:elastos:iTest" "mainnet" "eth" "eth_getBalance"
        (GoValue.slice [GoValue.str "0x48F01b2f2b1a546927ee99dD03dCa37ff19cB84e",
          GoValue.str "latest"]) []).1 =
      Outcome.ret (GoValue.str (hexString (2 ^ 63))) ∧
    (GetCurrentBalance (scriptedWorld [⟨tokenBalanceBig, true⟩]) "test-api-key"
        "did:elastos:iTest" "mainnet" "eth" "0x48F01b2f2b1a546927ee99dD03dCa37ff19cB84e" []).1 =
      Outcome.ret (GoValue.str "9223372036854775807") ∧
    Nat.repr (2 ^ 63) = "9223372036854775808" ∧
    "9223372036854775807" ≠ Nat.repr (2 ^ 63) :=
  ⟨by rfl, by rfl, by decide, by decide⟩

/-! ### C10: heights that are not decimal integers -/

theorem digitVal_of_isDecDigit (c : Char) (h : isDecDigit c = true) :
    digitVal c = some (c.toNat - 48) ∧ c.toNat - 48 < 10 := by
  unfold isDecDigit at h
  unfold digitVal
  simp only [Bool.and_eq_true, decide_eq_true_eq] at h
  rw [if_pos h]
  exact ⟨rfl, by omega⟩

theorem digitVal_of_not_isDecDigit (c : Char) (h : isDecDigit c = false) :
    digitVal c = none ∨ ∃ k, digitVal c = some k ∧ 10 ≤ k := by
  unfold isDecDigit at h
  unfold digitVal
  have h2 : ¬ (48 ≤ c.toNat ∧ c.toNat ≤ 57) := by
    intro hc
    simp [hc.1, hc.2] at h
  rw [if_neg h2]
  split
  · exact Or.inr ⟨_, rfl, by omega⟩
  · exact Or.inl rfl

/-- On a string with a character that is not a decimal digit the digit loop in
base 10 ends in an error. -/
theorem ParseUintLoop_invalid : ∀ (l : List Char) (acc : Nat), l.all isDecDigit = false →
    ParseUintLoop 10 l acc = (0, some NumError.ErrSyntax) ∨
    ParseUintLoop 10 l acc = (maxUint64, some NumError.ErrRange) := by
  intro l
  induction l with
  | nil => intro acc h; simp at h
  | cons c cs ih =>
    intro acc h
    rw [ParseUintLoop]
    cases hc : isDecDigit c with
    | false =>
      rcases digitVal_of_not_isDecDigit c hc with hnone | ⟨k, hk, hk10⟩
      · rw [hnone]; exact Or.inl rfl
      · rw [hk]
        simp only
        rw [if_pos hk10]
        exact Or.inl rfl
    | true =>
      have hcs : cs.all isDecDigit = false := by
        simpa [List.all_cons, hc] using h
      rw [(digitVal_of_isDecDigit c hc).1]
      simp only
      split
      · exact Or.inl rfl
      · split
        · exact Or.inr rfl
        · split
          · exact Or.inr rfl
          · exact ih _ hcs

/-- When moreover the digits before the first invalid character do not
overflow, the error is a syntax error. -/
theorem ParseUintLoop_invalid_small : ∀ (l : List Char) (acc : Nat),
    l.all isDecDigit = false →
    (l.takeWhile isDecDigit).foldl (fun a c => 10 * a + (c.toNat - 48)) acc < 2 ^ 64 →
    ParseUintLoop 10 l acc = (0, some NumError.ErrSyntax) := by
  intro l
  induction l with
  | nil => intro acc h; simp at h
  | cons c cs ih =>
    intro acc h hv
    rw [ParseUintLoop]
    cases hc : isDecDigit c with
    | false =>
      rcases digitVal_of_not_isDecDigit c hc with hnone | ⟨k, hk, hk10⟩
      · rw [hnone]
      · rw [hk]
        simp only
        rw [if_pos hk10]
    | true =>
      have hcs : cs.all isDecDigit = false := by
        simpa [List.all_cons, hc] using h
      obtain ⟨hdv, hlt⟩ := digitVal_of_isDecDigit c hc
      simp only [List.takeWhile_cons, hc, if_true, List.foldl_cons] at hv
      have hmono : ∀ (l : List Char) (a : Nat),
          a ≤ l.foldl (fun a c => 10 * a + (c.toNat - 48)) a := by
        intro l
        induction l with
        | nil => intro a; simp
        | cons x xs ihx =>
          intro a
          simp only [List.foldl_cons]
          exact le_trans (by omega) (ihx _)
      have hle := hmono (cs.takeWhile isDecDigit) (10 * acc + (c.toNat - 48))
      have hmax : maxUint64 = 2 ^ 64 - 1 := rfl
      have hacc : ¬ (acc ≥ maxUint64 / 10 + 1) := by
        rw [hmax]
        omega
      have e0 : acc * 10 % 2 ^ 64 = acc * 10 := Nat.mod_eq_of_lt (by omega)
      have e1 : (acc * 10 + (c.toNat - 48)) % 2 ^ 64 = acc * 10 + (c.toNat - 48) :=
        Nat.mod_eq_of_lt (by omega)
      rw [hdv]
      simp only
      rw [if_neg (by omega), if_neg hacc]
      simp only [e0, e1]
      rw [if_neg (by rw [hmax]; omega)]
      apply ih _ hcs
      rw [Nat.mul_comm]
      exact hv

theorem ParseInt_unsigned (s : List Char) (hs : s ≠ []) :
    ParseInt s 10 =
      (match ParseUint (unsignedPart s) 10 with
      | (un, err) =>
        if err ≠ none ∧ err ≠ some NumError.ErrRange then (0, err)
        else if decide (s.head? = some '-') = false ∧ un ≥ 2 ^ 63 then
          ((2 : Int) ^ 63 - 1, some NumError.ErrRange)
        else if decide (s.head? = some '-') = true ∧ un > 2 ^ 63 then
          (-(2 : Int) ^ 63, some NumError.ErrRange)
        else (if decide (s.head? = some '-') then -(un : Int) else (un : Int), none)) := by
  cases s with
  | nil => exact absurd rfl hs
  | cons c rest =>
    simp only [ParseInt, unsignedPart, List.head?_cons, Option.some.injEq]

/-- `Atoi` reports an error on every string that is not a decimal integer. -/
theorem Atoi_invalid (s : String) (h : isDecimalInteger s = false) :
    (Atoi s).2 ≠ none := by
  unfold Atoi
  cases hd : s.data with
  | nil => simp [ParseInt]
  | cons c rest =>
    rw [← hd, ParseInt_unsigned _ (by rw [hd]; simp)]
    unfold isDecimalInteger at h
    cases hu : unsignedPart s.data with
    | nil => simp [ParseUint]
    | cons u us =>
      rw [hu] at h
      have hall : (u :: us).all isDecDigit = false := by simpa using h
      have hmax : maxUint64 = 2 ^ 64 - 1 := rfl
      unfold ParseUint
      rw [if_neg (by simp), if_pos (by omega)]
      rcases ParseUintLoop_invalid _ 0 hall with e | e
      · rw [e]; simp
      · rw [e]
        simp only [hmax]
        by_cases hneg : s.data.head? = some '-'
        · simp [hneg]
        · simp [hneg]

/-- `Atoi` returns 0 with a syntax error on a string that is not a decimal
integer and whose leading digits do not overflow 64 bits. -/
theorem Atoi_invalid_small (s : String) (h : isDecimalInteger s = false)
    (hv : leadingDigitsValue s < 2 ^ 64) : Atoi s = (0, some NumError.ErrSyntax) := by
  unfold Atoi
  cases hd : s.data with
  | nil => simp [ParseInt]
  | cons c rest =>
    rw [← hd, ParseInt_unsigned _ (by rw [hd]; simp)]
    unfold isDecimalInteger at h
    unfold leadingDigitsValue decimalValue at hv
    cases hu : unsignedPart s.data with
    | nil => simp [ParseUint]
    | cons u us =>
      rw [hu] at h hv
      have hall : (u :: us).all isDecDigit = false := by simpa using h
      unfold ParseUint
      rw [if_neg (by simp), if_pos (by omega), ParseUintLoop_invalid_small _ 0 hall hv]
      simp

/-- C10 (amended). For a height string that is not a valid decimal integer:
`GetBlockConfirm` fails without issuing any call; and when the digits before
the first invalid character do not overflow 64 bits (as for the empty string
or `abc`), `GetBlockInfo` on chain `eth` does not stop at the bad height: it
issues `eth_getBlockByNumber` with params `["0x00", true]`, exactly the call it
issues for height `0`. -/
theorem C10_invalid_height (W : World) (apiKey did network height : String)
    (tr : List Event) (hbad : isDecimalInteger height = false) :
    GetBlockConfirm W apiKey did network height tr =
      (Outcome.fatal "Failed to execute 'GetBlockConfirm' method", tr) ∧
    (leadingDigitsValue height < 2 ^ 64 →
      GetBlockInfo W apiKey did network "eth" height tr =
        assertMap (RpcMethod W apiKey did network "eth" "eth_getBlockByNumber"
          (GoValue.slice [GoValue.str "0x00", GoValue.bool true]) tr) ∧
      GetBlockInfo W apiKey did network "eth" height tr =
        GetBlockInfo W apiKey did network "eth" "0" tr ∧
      callsOf (GetBlockInfo W apiKey did network "eth" height tr).2 = callsOf tr ++
        [Event.call apiKey did network "eth" "eth_getBlockByNumber"
          (GoValue.slice [GoValue.str "0x00", GoValue.bool true])]) := by
  constructor
  · have h := Atoi_invalid height hbad
    unfold GetBlockConfirm
    rcases hA : Atoi height with ⟨v, _ | e⟩
    · rw [hA] at h
      exact absurd rfl h
    · rfl
  · intro hv
    have hA := Atoi_invalid_small height hbad hv
    have h0 : Atoi "0" = (0, none) := by decide
    have hfmt : Sprintf0x02x 0 = "0x00" := by decide
    have e1 : GetBlockInfo W apiKey did network "eth" height tr =
        assertMap (RpcMethod W apiKey did network "eth" "eth_getBlockByNumber"
          (GoValue.slice [GoValue.str "0x00", GoValue.bool true]) tr) := by
      unfold GetBlockInfo
      rw [if_pos rfl, hA]
      simp only [hfmt]
    have e2 : GetBlockInfo W apiKey did network "eth" "0" tr =
        assertMap (RpcMethod W apiKey did network "eth" "eth_getBlockByNumber"
          (GoValue.slice [GoValue.str "0x00", GoValue.bool true]) tr) := by
      unfold GetBlockInfo
      rw [if_pos rfl, h0]
      simp only [hfmt]
    refine ⟨e1, by rw [e1, e2], ?_⟩
    rw [e1]
    have hc := RpcMethod_calls W apiKey did network "eth" "eth_getBlockByNumber"
      (GoValue.slice [GoValue.str "0x00", GoValue.bool true]) tr
    rcases hr : RpcMethod W apiKey did network "eth" "eth_getBlockByNumber"
      (GoValue.slice [GoValue.str "0x00", GoValue.bool true]) tr with ⟨o, t⟩
    rw [hr] at hc
    simp only at hc
    cases o with
    | ret v => cases v <;> simpa [assertMap, Run.andThen] using hc
    | fatal m => simpa [assertMap, Run.andThen] using hc
    | panic m => simpa [assertMap, Run.andThen] using hc

/-- C10 at a concrete run: the height `abc`. -/
theorem C10_invalid_height_witness :
    isDecimalInteger "abc" = false ∧ leadingDigitsValue "abc" < 2 ^ 64 ∧
    GetBlockConfirm (scriptedWorld [⟨tokenBlock0, true⟩]) "test-api-key" "did:elastos:iTest"
        "mainnet" "abc" [] =
      (Outcome.fatal "Failed to execute 'GetBlockConfirm' method", []) ∧
    callsOf (GetBlockInfo (scriptedWorld [⟨tokenBlock0, true⟩]) "test-api-key"
        "did:elastos:iTest" "mainnet" "eth" "abc" []).2 =
      [Event.call "test-api-key" "did:elastos:iTest" "mainnet" "eth" "eth_getBlockByNumber"
        (GoValue.slice [GoValue.str "0x00", GoValue.bool true])] :=
  ⟨by decide, by decide,
    (C10_invalid_height (scriptedWorld [⟨tokenBlock0, true⟩]) "test-api-key"
      "did:elastos:iTest" "mainnet" "abc" [] (by decide)).1,
    ((C10_invalid_height (scriptedWorld [⟨tokenBlock0, true⟩]) "test-api-key"
      "did:elastos:iTest" "mainnet" "abc" [] (by decide)).2 (by decide)).2.2⟩

/-- C10 as stated fails: the height `99999999999999999999x` is not a valid
decimal integer, but its twenty digits overflow 64 bits before the `x` is
reached; `Atoi` then returns the largest `int64` with a range error, and
`GetBlockInfo` issues `eth_getBlockByNumber` with `0x7fffffffffffffff`, not with
`0x00`. -/
theorem C10_counterexample :
    isDecimalInteger "99999999999999999999x" = false ∧
    Atoi "99999999999999999999x" = (2 ^ 63 - 1, some NumError.ErrRange) ∧
    callsOf (GetBlockInfo (scriptedWorld [⟨tokenBlock0, true⟩]) "test-api-key"
        "did:elastos:iTest" "mainnet" "eth" "99999999999999999999x" []).2 =
      [Event.call "test-api-key" "did:elastos:iTest" "mainnet" "eth" "eth_getBlockByNumber"
        (GoValue.slice [GoValue.str "0x7fffffffffffffff", GoValue.bool true])] ∧
    callsOf (GetBlockInfo (scriptedWorld [⟨tokenBlock0, true⟩]) "test-api-key"
        "did:elastos:iTest" "mainnet" "eth" "0" []).2 =
      [Event.call "test-api-key" "did:elastos:iTest" "mainnet" "eth" "eth_getBlockByNumber"
        (GoValue.slice [GoValue.str "0x00", GoValue.bool true])] :=
  ⟨by decide, by decide, by rfl, by rfl⟩

end Adenine
